import Mathlib

/-!
Shallow embedding of the PFORK_MCP governance-and-treasury core:
`PitchforksGovernance.sol`, `PitchforksTreasury.sol` and the shared base
`PitchforksCore.sol` (Solidity ^0.8.19).

Modelling conventions:
* `uint256` is embedded as `Nat`.  Solidity ^0.8 checked arithmetic never
  wraps (it reverts on overflow); every subtraction in the source is guarded
  by an explicit `require`, so `Nat` arithmetic coincides with the source on
  all in-range inputs.
* Addresses and ERC20 token contract addresses are `Nat` (`0` plays the role
  of `address(0)`).
* `msg.sender` and `block.timestamp` are explicit `caller`/`now` arguments.
* External oracle reads (`PFORK_TOKEN.balanceOf(msg.sender)` and
  `totalSupply()`) are explicit arguments of the governance operations,
  reflecting that vote weight is the live balance at call time.
* The treasury's own ERC20 holdings (`token.balanceOf(address(this))`) are
  tracked in the field `holdings`; an outgoing `token.transfer` succeeds
  exactly when the holding covers the amount (standard ERC20 semantics),
  and `transferFrom` into the treasury is modelled as always succeeding
  (the external sender's funds are out of scope).
* A Solidity `require` failure reverts the whole transaction; an operation
  is therefore `TState → Except String TState` (the error carries the revert
  string) and the observable post-transaction state of a failed call is the
  pre-state.  `_checkDailyLimit` mutates storage before possibly returning
  `false`; it is embedded as returning `Bool × State` and the caller
  discards the mutated state on the revert path, exactly as the EVM does.
* Events are not modelled.  `keccak256(_actionData)` is modelled by an
  opaque numeric payload carried through unchanged.
-/

/-- Pointwise update of a function at one key. -/
def fupd {α : Type} {β : Type} [DecidableEq α] (f : α → β) (a : α) (b : β) : α → β :=
  fun x => if x = a then b else f x

theorem fupd_same {α β : Type} [DecidableEq α] (f : α → β) (a : α) (b : β) :
    fupd f a b a = b := by simp [fupd]

theorem fupd_other {α β : Type} [DecidableEq α] (f : α → β) (a : α) (b : β)
    (x : α) (hx : x ≠ a) : fupd f a b x = f x := by simp [fupd, hx]

abbrev Addr := Nat
abbrev Token := Nat

/-- `PitchforksCore.Project`: the fixed five-project enumeration. -/
inductive Project where
  | PROTOCOL
  | DEX
  | FERRY
  | ANALYST
  | APP
deriving DecidableEq, Repr

/-- All five projects, in declaration order (mirrors the constructor loop
`for i in 0..=APP`). -/
def projectList : List Project :=
  [.PROTOCOL, .DEX, .FERRY, .ANALYST, .APP]

/-- `1 days` in Solidity. -/
def oneDay : Nat := 86400

/-- Whether an `Except`-valued call succeeded. -/
def isOk {α : Type} (e : Except String α) : Bool :=
  match e with
  | .ok _ => true
  | .error _ => false

namespace Gov

/-- `PitchforksGovernance.Proposal` (storage struct). -/
structure Proposal where
  id : Nat
  title : String
  description : String
  proposer : Addr
  startTime : Nat
  endTime : Nat
  forVotes : Nat
  againstVotes : Nat
  abstainVotes : Nat
  executed : Bool
  canceled : Bool
  hasVoted : Addr → Bool
  voters : List Addr
  targetProject : Project
  actionHash : Nat

/-- The all-zero proposal record: what an untouched mapping slot holds. -/
def Proposal.zero : Proposal :=
  { id := 0, title := "", description := "", proposer := 0, startTime := 0,
    endTime := 0, forVotes := 0, againstVotes := 0, abstainVotes := 0,
    executed := false, canceled := false, hasVoted := fun _ => false,
    voters := [], targetProject := .PROTOCOL, actionHash := 0 }

/-- `PitchforksGovernance.Vote`. -/
structure VoteRec where
  voter : Addr
  support : Nat
  weight : Nat
  timestamp : Nat
deriving DecidableEq, Repr

/-- State of the `PitchforksGovernance` contract.  `votingPeriod`,
`quorumThreshold` (basis points) and `executionDelay` are the immutables;
`ownerAddr` is `Ownable.owner()`; `paused` the `Pausable` flag. -/
structure GovState where
  votingPeriod : Nat
  quorumThreshold : Nat
  executionDelay : Nat
  proposals : Nat → Proposal
  proposalVotes : Nat → List VoteRec
  proposalCounter : Nat
  minProposalThreshold : Nat
  maxProposalsPerAccount : Nat
  userProposalCount : Addr → Nat
  lastProposalTime : Addr → Nat
  ownerAddr : Addr
  paused : Bool

/-- The state the `PitchforksGovernance` constructor establishes. -/
def deployedGov (votingPeriod quorumThreshold executionDelay : Nat) (ownerAddr : Addr) :
    GovState :=
  { votingPeriod := votingPeriod
    quorumThreshold := quorumThreshold
    executionDelay := executionDelay
    proposals := fun _ => Proposal.zero
    proposalVotes := fun _ => []
    proposalCounter := 0
    minProposalThreshold := 1000 * 10 ^ 18
    maxProposalsPerAccount := 5
    userProposalCount := fun _ => 0
    lastProposalTime := fun _ => 0
    ownerAddr := ownerAddr
    paused := false }

/-- Constructor of `PitchforksGovernance` (the `require`s on the constructor
arguments are preconditions of deployment, recorded here as-is). -/
def initGov (votingPeriod quorumThreshold executionDelay : Nat) (ownerAddr : Addr) :
    Except String GovState :=
  if votingPeriod = 0 then .error "Voting period must be > 0"
  else if quorumThreshold > 10000 then .error "Quorum threshold must be <= 100%"
  else if executionDelay = 0 then .error "Execution delay must be > 0"
  else .ok (deployedGov votingPeriod quorumThreshold executionDelay ownerAddr)

/-- `createProposal`.  `callerBal` is the oracle reading
`PFORK_TOKEN.balanceOf(msg.sender)` at call time; `actionData` the opaque
payload (its keccak hash is modelled by the payload itself).  The Solidity
range check on the enum argument is vacuous here because `Project` is typed. -/
def createProposal (s : GovState) (caller : Addr) (now : Nat) (callerBal : Nat)
    (title description : String) (targetProject : Project) (actionData : Nat) :
    Except String GovState :=
  if title.length = 0 then .error "Title cannot be empty"
  else if description.length = 0 then .error "Description cannot be empty"
  else if callerBal < s.minProposalThreshold then .error "Insufficient tokens to propose"
  else if s.userProposalCount caller ≥ s.maxProposalsPerAccount then .error "Too many proposals"
  else if now < s.lastProposalTime caller + oneDay then .error "Proposal cooldown"
  else
    let pid := s.proposalCounter
    let p : Proposal :=
      { id := pid, title := title, description := description, proposer := caller,
        startTime := now, endTime := now + s.votingPeriod,
        forVotes := 0, againstVotes := 0, abstainVotes := 0,
        executed := false, canceled := false, hasVoted := fun _ => false,
        voters := [], targetProject := targetProject, actionHash := actionData }
    .ok { s with
          proposals := fupd s.proposals pid p
          proposalCounter := pid + 1
          userProposalCount := fupd s.userProposalCount caller (s.userProposalCount caller + 1)
          lastProposalTime := fupd s.lastProposalTime caller now }

/-- `vote`.  `callerBal` is the live balance oracle reading (the vote
weight), `support ∈ {0,1,2}` as in the source (`uint8`). -/
def vote (s : GovState) (caller : Addr) (now : Nat) (callerBal : Nat)
    (pid : Nat) (support : Nat) : Except String GovState :=
  if support > 2 then .error "Invalid support value"
  else
    let p := s.proposals pid
    if now < p.startTime then .error "Voting not started"
    else if now > p.endTime then .error "Voting ended"
    else if p.hasVoted caller then .error "Already voted"
    else if p.canceled then .error "Proposal canceled"
    else if p.executed then .error "Proposal already executed"
    else if callerBal = 0 then .error "No voting power"
    else
      let p1 :=
        { p with
          hasVoted := fupd p.hasVoted caller true
          voters := p.voters ++ [caller]
          forVotes := if support = 1 then p.forVotes + callerBal else p.forVotes
          againstVotes := if support = 0 then p.againstVotes + callerBal else p.againstVotes
          abstainVotes :=
            if support ≠ 1 ∧ support ≠ 0 then p.abstainVotes + callerBal else p.abstainVotes }
      .ok { s with
            proposals := fupd s.proposals pid p1
            proposalVotes := fupd s.proposalVotes pid
              (s.proposalVotes pid ++
                [{ voter := caller, support := support, weight := callerBal, timestamp := now }]) }

/-- `executeProposal` (gated by the `onlyWhenNotPaused` modifier).
`totalSupply` is the oracle reading `PFORK_TOKEN.totalSupply()`. -/
def executeProposal (s : GovState) (_caller : Addr) (now : Nat)
    (totalSupply : Nat) (pid : Nat) : Except String GovState :=
  if s.paused then .error "Contract is paused"
  else
    let p := s.proposals pid
    if now ≤ p.endTime + s.executionDelay then .error "Execution delay not met"
    else if p.executed then .error "Already executed"
    else if p.canceled then .error "Proposal canceled"
    else if p.forVotes + p.againstVotes = 0 then .error "No votes cast"
    else if p.forVotes ≤ p.againstVotes then .error "Proposal did not pass"
    else if p.forVotes + p.againstVotes + p.abstainVotes <
        totalSupply * s.quorumThreshold / 10000 then .error "Quorum not reached"
    else
      .ok { s with proposals := fupd s.proposals pid { p with executed := true } }

/-- `cancelProposal` (the `reason` string only feeds the event). -/
def cancelProposal (s : GovState) (caller : Addr) (pid : Nat) (_reason : String) :
    Except String GovState :=
  let p := s.proposals pid
  if ¬(caller = p.proposer ∨ caller = s.ownerAddr) then .error "Not authorized"
  else if p.executed then .error "Already executed"
  else if p.canceled then .error "Already canceled"
  else
    .ok { s with proposals := fupd s.proposals pid { p with canceled := true } }

/-- `PitchforksCore.emergencyPause` (owner only; OpenZeppelin `_pause`
requires the contract not to be paused already). -/
def emergencyPause (s : GovState) (caller : Addr) (_reason : String) :
    Except String GovState :=
  if caller ≠ s.ownerAddr then .error "Ownable: caller is not the owner"
  else if s.paused then .error "Pausable: paused"
  else .ok { s with paused := true }

/-- `PitchforksCore.emergencyUnpause` (owner only; `_unpause` requires the
contract to be paused). -/
def emergencyUnpause (s : GovState) (caller : Addr) (_reason : String) :
    Except String GovState :=
  if caller ≠ s.ownerAddr then .error "Ownable: caller is not the owner"
  else if ¬s.paused then .error "Pausable: not paused"
  else .ok { s with paused := false }

/-- The externally callable mutating operations of the governance engine
(spec §4.1) plus the shared pause switch of `PitchforksCore`, with their
call-time environment (caller, timestamp, oracle readings) baked into the
operation. -/
inductive GOp where
  | createProposal (caller now callerBal : Nat) (title description : String)
      (targetProject : Project) (actionData : Nat)
  | vote (caller now callerBal pid support : Nat)
  | executeProposal (caller now totalSupply pid : Nat)
  | cancelProposal (caller : Nat) (pid : Nat) (reason : String)
  | emergencyPause (caller : Nat) (reason : String)
  | emergencyUnpause (caller : Nat) (reason : String)

/-- One governance transaction: `ok` is a successful state transition,
`error` a revert. -/
def govStep (o : GOp) (s : GovState) : Except String GovState :=
  match o with
  | .createProposal caller now callerBal title description targetProject actionData =>
      createProposal s caller now callerBal title description targetProject actionData
  | .vote caller now callerBal pid support => vote s caller now callerBal pid support
  | .executeProposal caller now totalSupply pid => executeProposal s caller now totalSupply pid
  | .cancelProposal caller pid reason => cancelProposal s caller pid reason
  | .emergencyPause caller reason => emergencyPause s caller reason
  | .emergencyUnpause caller reason => emergencyUnpause s caller reason

/-- Observable post-transaction state: a revert leaves the pre-state. -/
def govApply (o : GOp) (s : GovState) : GovState :=
  match govStep o s with
  | .ok s1 => s1
  | .error _ => s

/-- Observable state after a sequence of governance transactions. -/
def govRun (s : GovState) (ops : List GOp) : GovState :=
  ops.foldl (fun acc o => govApply o acc) s

end Gov

namespace Treasury

/-- `PitchforksTreasury.Budget` (storage struct). -/
structure Budget where
  allocatedAmount : Nat
  spentAmount : Nat
  withdrawalLimit : Nat
  dailyLimit : Nat
  lastWithdrawalTime : Nat
  dailySpent : Nat
  isActive : Bool
  authorizedOperators : Addr → Bool
  operatorList : List Addr

/-- Untouched `Budget` mapping slot. -/
def Budget.zero : Budget :=
  { allocatedAmount := 0, spentAmount := 0, withdrawalLimit := 0, dailyLimit := 0,
    lastWithdrawalTime := 0, dailySpent := 0, isActive := false,
    authorizedOperators := fun _ => false, operatorList := [] }

/-- `PitchforksTreasury.TokenBalance`. -/
structure TokenBalance where
  balance : Nat
  totalAllocated : Nat
  totalSpent : Nat
  isSupported : Bool
deriving DecidableEq, Repr

/-- Untouched `TokenBalance` mapping slot. -/
def TokenBalance.zero : TokenBalance :=
  { balance := 0, totalAllocated := 0, totalSpent := 0, isSupported := false }

/-- `PitchforksTreasury.ScheduledPayment`. -/
structure ScheduledPayment where
  id : Nat
  recipient : Addr
  token : Token
  amount : Nat
  frequency : Nat
  nextPaymentTime : Nat
  totalPayments : Nat
  remainingPayments : Nat
  creator : Addr
  isActive : Bool
deriving DecidableEq, Repr

/-- Untouched `ScheduledPayment` mapping slot. -/
def ScheduledPayment.zero : ScheduledPayment :=
  { id := 0, recipient := 0, token := 0, amount := 0, frequency := 0,
    nextPaymentTime := 0, totalPayments := 0, remainingPayments := 0,
    creator := 0, isActive := false }

/-- State of the `PitchforksTreasury` contract.  `governanceAddr` and
`pforkToken` are the immutables `GOVERNANCE_CONTRACT` / `PFORK_TOKEN`;
`ownerAddr` is `Ownable.owner()`; `holdings` tracks the external ERC20
view `token.balanceOf(address(this))` per token. -/
structure TState where
  governanceAddr : Addr
  pforkToken : Token
  ownerAddr : Addr
  budgets : Project → Budget
  tokenBalances : Project → Token → TokenBalance
  supportedTokens : Project → List Token
  scheduledPayments : Nat → ScheduledPayment
  projectScheduledPayments : Project → List Nat
  scheduledPaymentCounter : Nat
  emergencyWithdrawalLimit : Nat
  defaultOperatorLimit : Nat
  defaultDailyLimit : Nat
  holdings : Token → Nat

/-- Write one `(project, token)` cell of the token-balance mapping. -/
def TState.setTB (s : TState) (p : Project) (t : Token) (tb : TokenBalance) : TState :=
  { s with tokenBalances := fupd s.tokenBalances p (fupd (s.tokenBalances p) t tb) }

/-- Write one project's budget. -/
def TState.setBudget (s : TState) (p : Project) (b : Budget) : TState :=
  { s with budgets := fupd s.budgets p b }

/-- `_addSupportedToken`. -/
def addSupportedToken (s : TState) (p : Project) (t : Token) : TState :=
  let tb := s.tokenBalances p t
  if tb.isSupported then s
  else
    { s.setTB p t { tb with isSupported := true } with
      supportedTokens := fupd s.supportedTokens p (s.supportedTokens p ++ [t]) }

/-- The state the `PitchforksTreasury` constructor establishes: zero state,
then PFORK marked supported for every project (the constructor loop). -/
def deployedTreasury (governanceAddr : Addr) (pforkToken : Token) (ownerAddr : Addr) :
    TState :=
  let base : TState :=
    { governanceAddr := governanceAddr
      pforkToken := pforkToken
      ownerAddr := ownerAddr
      budgets := fun _ => Budget.zero
      tokenBalances := fun _ _ => TokenBalance.zero
      supportedTokens := fun _ => []
      scheduledPayments := fun _ => ScheduledPayment.zero
      projectScheduledPayments := fun _ => []
      scheduledPaymentCounter := 0
      emergencyWithdrawalLimit := 1000 * 10 ^ 18
      defaultOperatorLimit := 100 * 10 ^ 18
      defaultDailyLimit := 500 * 10 ^ 18
      holdings := fun _ => 0 }
  projectList.foldl (fun acc p => addSupportedToken acc p pforkToken) base

/-- Constructor of `PitchforksTreasury` with its deployment `require`s. -/
def initTreasury (governanceAddr : Addr) (pforkToken : Token) (ownerAddr : Addr) :
    Except String TState :=
  if governanceAddr = 0 then .error "Invalid governance address"
  else if pforkToken = 0 then .error "Invalid PFORK token address"
  else .ok (deployedTreasury governanceAddr pforkToken ownerAddr)

/-- `allocateBudget`.  The `transferFrom` into the treasury is modelled as
always succeeding and credits `holdings`. -/
def allocateBudget (s : TState) (caller : Addr) (project : Project) (token : Token)
    (amount withdrawalLimit dailyLimit : Nat) : Except String TState :=
  if ¬(caller = s.governanceAddr ∨ caller = s.ownerAddr) then
    .error "Only governance can allocate budget"
  else if amount = 0 then .error "Amount must be > 0"
  else if token = 0 then .error "Invalid token"
  else
    let b := s.budgets project
    let tb := s.tokenBalances project token
    let b1 :=
      { b with
        allocatedAmount := b.allocatedAmount + amount
        withdrawalLimit := if withdrawalLimit > 0 then withdrawalLimit else b.withdrawalLimit
        dailyLimit := if dailyLimit > 0 then dailyLimit else b.dailyLimit
        isActive := true }
    let tb1 :=
      { tb with
        balance := tb.balance + amount
        totalAllocated := tb.totalAllocated + amount }
    let s1 := (s.setBudget project b1).setTB project token tb1
    let s2 := { s1 with holdings := fupd s1.holdings token (s1.holdings token + amount) }
    .ok (addSupportedToken s2 project token)

/-- `_checkDailyLimit`: resets the daily counter when the 24h window has
elapsed, then either rejects (returning `false` with the partially mutated
storage, which the caller's `require` will revert) or accumulates. -/
def checkDailyLimit (s : TState) (now : Nat) (project : Project) (amount : Nat) :
    Bool × TState :=
  let b := s.budgets project
  let b1 :=
    if now ≥ b.lastWithdrawalTime + oneDay then
      { b with dailySpent := 0, lastWithdrawalTime := now }
    else b
  if b1.dailySpent + amount > b1.dailyLimit then
    (false, s.setBudget project b1)
  else
    (true, s.setBudget project { b1 with dailySpent := b1.dailySpent + amount })

/-- `withdrawFunds`.  The outgoing `token.transfer` succeeds exactly when the
treasury's holding covers the amount; its failure reverts the call. -/
def withdrawFunds (s : TState) (caller : Addr) (now : Nat) (project : Project)
    (token : Token) (recipient : Addr) (amount : Nat) : Except String TState :=
  if recipient = 0 then .error "Invalid recipient"
  else if amount = 0 then .error "Amount must be > 0"
  else
    let b := s.budgets project
    let tb := s.tokenBalances project token
    if ¬b.isActive then .error "Budget not active"
    else if ¬tb.isSupported then .error "Token not supported"
    else if ¬(caller = s.ownerAddr ∨ caller = s.governanceAddr ∨
        b.authorizedOperators caller) then .error "Not authorized to withdraw"
    else if tb.balance < amount then .error "Insufficient funds"
    else
      let afterLimits : Except String TState :=
        if caller ≠ s.ownerAddr ∧ caller ≠ s.governanceAddr then
          if amount > b.withdrawalLimit then .error "Amount exceeds withdrawal limit"
          else
            match checkDailyLimit s now project amount with
            | (true, s1) => .ok s1
            | (false, _) => .error "Amount exceeds daily limit"
        else .ok s
      match afterLimits with
      | .error e => .error e
      | .ok s1 =>
          let b1 := s1.budgets project
          let tb1 := s1.tokenBalances project token
          let s2 := (s1.setBudget project { b1 with spentAmount := b1.spentAmount + amount
                      }).setTB project token
                      { tb1 with balance := tb1.balance - amount
                                 totalSpent := tb1.totalSpent + amount }
          if s2.holdings token < amount then .error "Transfer failed"
          else .ok { s2 with holdings := fupd s2.holdings token (s2.holdings token - amount) }

/-- `emergencyWithdraw` (owner only; bypasses all per-project bookkeeping). -/
def emergencyWithdraw (s : TState) (caller : Addr) (token : Token)
    (_recipient : Addr) (amount : Nat) (_reason : String) : Except String TState :=
  if caller ≠ s.ownerAddr then .error "Ownable: caller is not the owner"
  else if amount > s.emergencyWithdrawalLimit then .error "Amount exceeds emergency limit"
  else if s.holdings token < amount then .error "Insufficient treasury funds"
  else .ok { s with holdings := fupd s.holdings token (s.holdings token - amount) }

/-- `addProjectOperator`. -/
def addProjectOperator (s : TState) (caller : Addr) (project : Project)
    (operator : Addr) : Except String TState :=
  if ¬(caller = s.ownerAddr ∨ caller = s.governanceAddr) then .error "Not authorized"
  else if operator = 0 then .error "Invalid operator"
  else
    let b := s.budgets project
    if b.authorizedOperators operator then .error "Operator already authorized"
    else
      .ok (s.setBudget project
        { b with authorizedOperators := fupd b.authorizedOperators operator true
                 operatorList := b.operatorList ++ [operator] })

/-- The swap-with-last-then-pop removal of the first occurrence, as in the
source's loop over `operatorList`. -/
def swapPopRemove (l : List Addr) (x : Addr) : List Addr :=
  if x ∈ l then (l.set (l.indexOf x) (l.getLastD 0)).dropLast else l

/-- `removeProjectOperator`. -/
def removeProjectOperator (s : TState) (caller : Addr) (project : Project)
    (operator : Addr) : Except String TState :=
  if ¬(caller = s.ownerAddr ∨ caller = s.governanceAddr) then .error "Not authorized"
  else
    let b := s.budgets project
    if ¬b.authorizedOperators operator then .error "Operator not authorized"
    else
      .ok (s.setBudget project
        { b with authorizedOperators := fupd b.authorizedOperators operator false
                 operatorList := swapPopRemove b.operatorList operator })

/-- `createScheduledPayment`. -/
def createScheduledPayment (s : TState) (caller : Addr) (now : Nat)
    (project : Project) (recipient : Addr) (token : Token)
    (amount frequency totalPayments : Nat) : Except String TState :=
  if ¬(caller = s.ownerAddr ∨ caller = s.governanceAddr) then .error "Not authorized"
  else if recipient = 0 then .error "Invalid recipient"
  else if amount = 0 then .error "Amount must be > 0"
  else if frequency = 0 then .error "Frequency must be > 0"
  else if totalPayments = 0 then .error "Total payments must be > 0"
  else
    let paymentId := s.scheduledPaymentCounter
    let pay : ScheduledPayment :=
      { id := paymentId, recipient := recipient, token := token, amount := amount,
        frequency := frequency, nextPaymentTime := now + frequency,
        totalPayments := totalPayments, remainingPayments := totalPayments,
        creator := caller, isActive := true }
    .ok { s with
          scheduledPayments := fupd s.scheduledPayments paymentId pay
          scheduledPaymentCounter := paymentId + 1
          projectScheduledPayments := fupd s.projectScheduledPayments project
            (s.projectScheduledPayments project ++ [paymentId]) }

/-- `executeScheduledPayment` (permissionless: the caller is never read).
The sufficiency check reads `payment.token.balanceOf(address(this))`, i.e.
the treasury's entire holding of the token. -/
def executeScheduledPayment (s : TState) (_caller : Addr) (now : Nat)
    (paymentId : Nat) : Except String TState :=
  let pay := s.scheduledPayments paymentId
  if ¬pay.isActive then .error "Payment not active"
  else if now < pay.nextPaymentTime then .error "Payment not due"
  else if pay.remainingPayments = 0 then .error "No remaining payments"
  else if s.holdings pay.token < pay.amount then .error "Insufficient funds"
  else
    let pay1 :=
      { pay with
        nextPaymentTime := pay.nextPaymentTime + pay.frequency
        remainingPayments := pay.remainingPayments - 1
        isActive := if pay.remainingPayments - 1 = 0 then false else pay.isActive }
    .ok { s with
          scheduledPayments := fupd s.scheduledPayments paymentId pay1
          holdings := fupd s.holdings pay.token (s.holdings pay.token - pay.amount) }

/-- The externally callable mutating operations of the treasury ledger
(spec §4.2), with their call-time environment baked in. -/
inductive TOp where
  | allocateBudget (caller : Addr) (project : Project) (token : Token)
      (amount withdrawalLimit dailyLimit : Nat)
  | withdrawFunds (caller now : Nat) (project : Project) (token : Token)
      (recipient amount : Nat)
  | emergencyWithdraw (caller : Addr) (token : Token) (recipient amount : Nat)
      (reason : String)
  | addProjectOperator (caller : Addr) (project : Project) (operator : Addr)
  | removeProjectOperator (caller : Addr) (project : Project) (operator : Addr)
  | createScheduledPayment (caller now : Nat) (project : Project)
      (recipient : Addr) (token : Token) (amount frequency totalPayments : Nat)
  | executeScheduledPayment (caller now paymentId : Nat)

/-- One treasury transaction. -/
def treasuryStep (o : TOp) (s : TState) : Except String TState :=
  match o with
  | .allocateBudget caller project token amount wl dl =>
      allocateBudget s caller project token amount wl dl
  | .withdrawFunds caller now project token recipient amount =>
      withdrawFunds s caller now project token recipient amount
  | .emergencyWithdraw caller token recipient amount reason =>
      emergencyWithdraw s caller token recipient amount reason
  | .addProjectOperator caller project operator => addProjectOperator s caller project operator
  | .removeProjectOperator caller project operator =>
      removeProjectOperator s caller project operator
  | .createScheduledPayment caller now project recipient token amount frequency totalPayments =>
      createScheduledPayment s caller now project recipient token amount frequency totalPayments
  | .executeScheduledPayment caller now paymentId =>
      executeScheduledPayment s caller now paymentId

/-- Observable post-transaction state: a revert leaves the pre-state. -/
def treasuryApply (o : TOp) (s : TState) : TState :=
  match treasuryStep o s with
  | .ok s1 => s1
  | .error _ => s

/-- Observable state after a sequence of treasury transactions. -/
def treasuryRun (s : TState) (ops : List TOp) : TState :=
  ops.foldl (fun acc o => treasuryApply o acc) s

end Treasury

/-- A transaction against either contract of the core (the two contracts
have disjoint state; a governance-privileged treasury call is a treasury
operation whose caller is the governance contract's address). -/
inductive SysOp where
  | gov (o : Gov.GOp)
  | treas (o : Treasury.TOp)

/-- Combined system state. -/
structure SysState where
  govSt : Gov.GovState
  treasSt : Treasury.TState

/-- One system transaction. -/
def sysStep (o : SysOp) (s : SysState) : Except String SysState :=
  match o with
  | .gov g =>
      match Gov.govStep g s.govSt with
      | .ok gs => .ok { s with govSt := gs }
      | .error e => .error e
  | .treas t =>
      match Treasury.treasuryStep t s.treasSt with
      | .ok ts => .ok { s with treasSt := ts }
      | .error e => .error e

/-- Observable post-transaction system state: a revert leaves the pre-state. -/
def sysApply (o : SysOp) (s : SysState) : SysState :=
  match sysStep o s with
  | .ok s1 => s1
  | .error _ => s

namespace Treasury

/-! ### Projection lemmas for the state-update helpers -/

@[simp] theorem setTB_budgets (s : TState) (p : Project) (t : Token) (tb : TokenBalance) :
    (s.setTB p t tb).budgets = s.budgets := rfl

@[simp] theorem setTB_tokenBalances (s : TState) (p : Project) (t : Token) (tb : TokenBalance) :
    (s.setTB p t tb).tokenBalances = fupd s.tokenBalances p (fupd (s.tokenBalances p) t tb) := rfl

@[simp] theorem setTB_supportedTokens (s : TState) (p : Project) (t : Token) (tb : TokenBalance) :
    (s.setTB p t tb).supportedTokens = s.supportedTokens := rfl

@[simp] theorem setTB_scheduledPayments (s : TState) (p : Project) (t : Token) (tb : TokenBalance) :
    (s.setTB p t tb).scheduledPayments = s.scheduledPayments := rfl

@[simp] theorem setTB_holdings (s : TState) (p : Project) (t : Token) (tb : TokenBalance) :
    (s.setTB p t tb).holdings = s.holdings := rfl

@[simp] theorem setTB_spCounter (s : TState) (p : Project) (t : Token) (tb : TokenBalance) :
    (s.setTB p t tb).scheduledPaymentCounter = s.scheduledPaymentCounter := rfl

@[simp] theorem setTB_ownerAddr (s : TState) (p : Project) (t : Token) (tb : TokenBalance) :
    (s.setTB p t tb).ownerAddr = s.ownerAddr := rfl

@[simp] theorem setTB_governanceAddr (s : TState) (p : Project) (t : Token) (tb : TokenBalance) :
    (s.setTB p t tb).governanceAddr = s.governanceAddr := rfl

@[simp] theorem setTB_projSched (s : TState) (p : Project) (t : Token) (tb : TokenBalance) :
    (s.setTB p t tb).projectScheduledPayments = s.projectScheduledPayments := rfl

@[simp] theorem setBudget_budgets (s : TState) (p : Project) (b : Budget) :
    (s.setBudget p b).budgets = fupd s.budgets p b := rfl

@[simp] theorem setBudget_tokenBalances (s : TState) (p : Project) (b : Budget) :
    (s.setBudget p b).tokenBalances = s.tokenBalances := rfl

@[simp] theorem setBudget_supportedTokens (s : TState) (p : Project) (b : Budget) :
    (s.setBudget p b).supportedTokens = s.supportedTokens := rfl

@[simp] theorem setBudget_scheduledPayments (s : TState) (p : Project) (b : Budget) :
    (s.setBudget p b).scheduledPayments = s.scheduledPayments := rfl

@[simp] theorem setBudget_holdings (s : TState) (p : Project) (b : Budget) :
    (s.setBudget p b).holdings = s.holdings := rfl

@[simp] theorem setBudget_spCounter (s : TState) (p : Project) (b : Budget) :
    (s.setBudget p b).scheduledPaymentCounter = s.scheduledPaymentCounter := rfl

@[simp] theorem setBudget_ownerAddr (s : TState) (p : Project) (b : Budget) :
    (s.setBudget p b).ownerAddr = s.ownerAddr := rfl

@[simp] theorem setBudget_governanceAddr (s : TState) (p : Project) (b : Budget) :
    (s.setBudget p b).governanceAddr = s.governanceAddr := rfl

@[simp] theorem setBudget_projSched (s : TState) (p : Project) (b : Budget) :
    (s.setBudget p b).projectScheduledPayments = s.projectScheduledPayments := rfl

/-! ### Sums of balances over the supported-token lists -/

/-- Sum of the recorded per-token custody balances of one project, over its
supported-token list. -/
def sumBal (s : TState) (p : Project) : Nat :=
  ((s.supportedTokens p).map fun t => (s.tokenBalances p t).balance).sum

theorem sumMap_fupd_not_mem {α : Type} [DecidableEq α] (l : List α) (f : α → Nat)
    (a : α) (b : Nat) (h : a ∉ l) :
    (l.map (fupd f a b)).sum = (l.map f).sum := by
  induction l with
  | nil => rfl
  | cons x xs ih =>
    simp only [List.map_cons, List.sum_cons]
    have hxa : x ≠ a := by
      rintro rfl
      exact h (List.mem_cons_self x xs)
    rw [fupd_other _ _ _ _ hxa, ih (fun hm => h (List.mem_cons_of_mem _ hm))]

theorem sumMap_fupd_mem {α : Type} [DecidableEq α] (l : List α) (f : α → Nat)
    (a : α) (b : Nat) (hnd : l.Nodup) (h : a ∈ l) :
    (l.map (fupd f a b)).sum + f a = (l.map f).sum + b := by
  induction l with
  | nil => cases h
  | cons x xs ih =>
    rcases List.nodup_cons.mp hnd with ⟨hx, hxs⟩
    simp only [List.map_cons, List.sum_cons]
    rcases List.mem_cons.mp h with h1 | hmem
    · subst h1
      rw [fupd_same, sumMap_fupd_not_mem xs f a b hx]
      omega
    · have hxa : x ≠ a := fun he => hx (he ▸ hmem)
      rw [fupd_other _ _ _ _ hxa]
      have := ih hxs hmem
      omega

/-! ### The treasury bookkeeping invariant -/

/-- The inductive bookkeeping invariant of the treasury.  `tbEq` is spec
invariant 4 (`balance = totalAllocated − totalSpent`, stated additively to
avoid truncated subtraction); `budgetEq` ties each project budget's
aggregate counters to the per-token custody balances and yields spec
invariant 3 (`spentAmount ≤ allocatedAmount`); the remaining components
record well-formedness of the supported-token bookkeeping. -/
structure TInv (s : TState) : Prop where
  tbEq : ∀ p t, (s.tokenBalances p t).balance + (s.tokenBalances p t).totalSpent
      = (s.tokenBalances p t).totalAllocated
  budgetEq : ∀ p, (s.budgets p).spentAmount + sumBal s p = (s.budgets p).allocatedAmount
  supIff : ∀ p t, (s.tokenBalances p t).isSupported = true ↔ t ∈ s.supportedTokens p
  supNodup : ∀ p, (s.supportedTokens p).Nodup
  unsupZero : ∀ p t, (s.tokenBalances p t).isSupported = false →
      s.tokenBalances p t = TokenBalance.zero

end Treasury

namespace Treasury

/-- The invariant only reads `tokenBalances`, `supportedTokens` and the two
aggregate budget counters; any transition preserving those preserves it. -/
theorem TInv_of_fields_eq (s s1 : TState)
    (htb : s1.tokenBalances = s.tokenBalances)
    (hsup : s1.supportedTokens = s.supportedTokens)
    (hb : ∀ p, (s1.budgets p).spentAmount = (s.budgets p).spentAmount ∧
        (s1.budgets p).allocatedAmount = (s.budgets p).allocatedAmount)
    (h : TInv s) : TInv s1 := by
  constructor
  · intro p t
    rw [htb]
    exact h.tbEq p t
  · intro p
    have hs : sumBal s1 p = sumBal s p := by
      unfold sumBal
      rw [htb, hsup]
    rw [hs, (hb p).1, (hb p).2]
    exact h.budgetEq p
  · intro p t
    rw [htb, hsup]
    exact h.supIff p t
  · intro p
    rw [hsup]
    exact h.supNodup p
  · intro p t
    rw [htb]
    exact h.unsupZero p t

theorem TInv_emergencyWithdraw {s s1 : TState} {c : Addr} {t : Token} {r a : Nat}
    {reason : String} (h : TInv s)
    (hok : emergencyWithdraw s c t r a reason = .ok s1) : TInv s1 := by
  unfold emergencyWithdraw at hok
  split at hok
  · cases hok
  split at hok
  · cases hok
  split at hok
  · cases hok
  cases hok
  exact TInv_of_fields_eq s _ rfl rfl (fun _ => ⟨rfl, rfl⟩) h

theorem TInv_addProjectOperator {s s1 : TState} {c : Addr} {p : Project} {op : Addr}
    (h : TInv s) (hok : addProjectOperator s c p op = .ok s1) : TInv s1 := by
  unfold addProjectOperator at hok
  dsimp only at hok
  split at hok
  · cases hok
  split at hok
  · cases hok
  split at hok
  · cases hok
  cases hok
  refine TInv_of_fields_eq s _ rfl rfl (fun q => ?_) h
  by_cases hq : q = p
  · subst q
    simp [fupd]
  · simp [fupd, hq]

theorem TInv_removeProjectOperator {s s1 : TState} {c : Addr} {p : Project} {op : Addr}
    (h : TInv s) (hok : removeProjectOperator s c p op = .ok s1) : TInv s1 := by
  unfold removeProjectOperator at hok
  dsimp only at hok
  split at hok
  · cases hok
  split at hok
  · cases hok
  cases hok
  refine TInv_of_fields_eq s _ rfl rfl (fun q => ?_) h
  by_cases hq : q = p
  · subst q
    simp [fupd]
  · simp [fupd, hq]

theorem TInv_createScheduledPayment {s s1 : TState} {c now : Nat} {p : Project}
    {r : Addr} {t : Token} {a f tp : Nat} (h : TInv s)
    (hok : createScheduledPayment s c now p r t a f tp = .ok s1) : TInv s1 := by
  unfold createScheduledPayment at hok
  split at hok
  · cases hok
  split at hok
  · cases hok
  split at hok
  · cases hok
  split at hok
  · cases hok
  split at hok
  · cases hok
  cases hok
  exact TInv_of_fields_eq s _ rfl rfl (fun _ => ⟨rfl, rfl⟩) h

theorem TInv_executeScheduledPayment {s s1 : TState} {c now pid : Nat} (h : TInv s)
    (hok : executeScheduledPayment s c now pid = .ok s1) : TInv s1 := by
  unfold executeScheduledPayment at hok
  dsimp only at hok
  split at hok
  · cases hok
  split at hok
  · cases hok
  split at hok
  · cases hok
  split at hok
  · cases hok
  cases hok
  exact TInv_of_fields_eq s _ rfl rfl (fun _ => ⟨rfl, rfl⟩) h

end Treasury

theorem fupd_fupd {α β : Type} [DecidableEq α] (f : α → β) (a : α) (b c : β) :
    fupd (fupd f a b) a c = fupd f a c := by
  funext x
  unfold fupd
  split <;> rfl

theorem fupd_proj {α β γ : Type} [DecidableEq α] (f : α → β) (a : α) (b : β) (g : β → γ) :
    (fun x => g (fupd f a b x)) = fupd (fun x => g (f x)) a (g b) := by
  funext x
  unfold fupd
  split <;> rfl

namespace Treasury

/-- `_checkDailyLimit` only touches the daily-window fields of the targeted
budget. -/
theorem checkDailyLimit_snd_frame (s : TState) (now : Nat) (p : Project) (a : Nat)
    (res : Bool) (s2 : TState) (heq : checkDailyLimit s now p a = (res, s2)) :
    s2.tokenBalances = s.tokenBalances ∧ s2.supportedTokens = s.supportedTokens ∧
    s2.holdings = s.holdings ∧ s2.scheduledPayments = s.scheduledPayments ∧
    s2.scheduledPaymentCounter = s.scheduledPaymentCounter ∧
    s2.projectScheduledPayments = s.projectScheduledPayments ∧
    ∀ q, (s2.budgets q).spentAmount = (s.budgets q).spentAmount ∧
        (s2.budgets q).allocatedAmount = (s.budgets q).allocatedAmount ∧
        (s2.budgets q).withdrawalLimit = (s.budgets q).withdrawalLimit ∧
        (s2.budgets q).dailyLimit = (s.budgets q).dailyLimit ∧
        (s2.budgets q).isActive = (s.budgets q).isActive ∧
        (s2.budgets q).authorizedOperators = (s.budgets q).authorizedOperators := by
  unfold checkDailyLimit at heq
  dsimp only at heq
  split at heq <;> split at heq <;>
  · cases heq
    refine ⟨rfl, rfl, rfl, rfl, rfl, rfl, fun q => ?_⟩
    by_cases hq : q = p
    · subst q
      simp [fupd]
    · simp [fupd, hq]

end Treasury

theorem map_fupd_proj {α β γ : Type} [DecidableEq α] (l : List α) (f : α → β) (a : α)
    (b : β) (g : β → γ) :
    l.map (fun x => g (fupd f a b x)) = l.map (fupd (fun x => g (f x)) a (g b)) := by
  induction l with
  | nil => rfl
  | cons x xs ih =>
    simp only [List.map_cons, ih]
    congr 1
    unfold fupd
    split <;> rfl

theorem nodup_append_singleton {α : Type} (l : List α) (x : α) (hnd : l.Nodup)
    (hx : x ∉ l) : (l ++ [x]).Nodup := by
  rw [List.nodup_append_comm]
  exact List.nodup_cons.mpr ⟨hx, hnd⟩

namespace Treasury

theorem TInv_allocateBudget {s s1 : TState} {c : Addr} {p : Project} {t : Token}
    {a wl dl : Nat} (h : TInv s) (hok : allocateBudget s c p t a wl dl = .ok s1) : TInv s1 := by
  unfold allocateBudget at hok
  dsimp only at hok
  split at hok
  · cases hok
  split at hok
  · cases hok
  split at hok
  · cases hok
  cases hok
  unfold addSupportedToken
  dsimp only
  simp only [setTB_tokenBalances, setBudget_tokenBalances, fupd_same]
  split
  case isTrue hsup =>
    have hmem : t ∈ s.supportedTokens p := (h.supIff p t).mp hsup
    constructor
    · intro q u
      by_cases hq : q = p
      · subst q
        by_cases hu : u = t
        · subst u
          have := h.tbEq p t
          simp [fupd]
          omega
        · simp [fupd, hu]
          exact h.tbEq p u
      · simp [fupd, hq]
        exact h.tbEq q u
    · intro q
      by_cases hq : q = p
      · subst q
        have hnd := h.supNodup p
        have hbq := h.budgetEq p
        have hsum := sumMap_fupd_mem (s.supportedTokens p)
          (fun u => (s.tokenBalances p u).balance) t ((s.tokenBalances p t).balance + a)
          hnd hmem
        unfold sumBal at hbq ⊢
        simp only [setTB_supportedTokens, setBudget_supportedTokens, setTB_tokenBalances,
          setBudget_tokenBalances, setTB_budgets, setBudget_budgets, fupd_same]
        rw [map_fupd_proj]
        dsimp only at hsum ⊢
        omega
      · have hbq := h.budgetEq q
        unfold sumBal at hbq ⊢
        simp [fupd, hq]
        omega
    · intro q u
      by_cases hq : q = p
      · subst q
        by_cases hu : u = t
        · subst u
          simpa [fupd] using (h.supIff p t)
        · simpa [fupd, hu] using (h.supIff p u)
      · simpa [fupd, hq] using (h.supIff q u)
    · intro q
      simpa using h.supNodup q
    · intro q u
      by_cases hq : q = p
      · subst q
        by_cases hu : u = t
        · subst u
          simp [fupd, hsup]
        · simpa [fupd, hu] using (h.unsupZero p u)
      · simpa [fupd, hq] using (h.unsupZero q u)
  case isFalse hsup =>
    have hsupf : (s.tokenBalances p t).isSupported = false := by
      revert hsup
      cases (s.tokenBalances p t).isSupported <;> simp
    have htz : s.tokenBalances p t = TokenBalance.zero := h.unsupZero p t hsupf
    have hnotmem : t ∉ s.supportedTokens p := fun hm => by
      have := (h.supIff p t).mpr hm
      rw [hsupf] at this
      cases this
    constructor
    · intro q u
      by_cases hq : q = p
      · subst q
        by_cases hu : u = t
        · subst u
          simp [fupd, fupd_fupd, htz, TokenBalance.zero]
        · simp [fupd, hu]
          exact h.tbEq p u
      · simp [fupd, hq]
        exact h.tbEq q u
    · intro q
      by_cases hq : q = p
      · subst q
        have hbq := h.budgetEq p
        unfold sumBal at hbq ⊢
        simp only [setTB_supportedTokens, setBudget_supportedTokens, setTB_tokenBalances,
          setBudget_tokenBalances, setTB_budgets, setBudget_budgets, fupd_same, fupd_fupd]
        rw [List.map_append, List.sum_append, map_fupd_proj]
        dsimp only
        rw [sumMap_fupd_not_mem _ _ _ _ hnotmem]
        simp [fupd, htz, TokenBalance.zero]
        omega
      · have hbq := h.budgetEq q
        unfold sumBal at hbq ⊢
        simp [fupd, hq]
        omega
    · intro q u
      by_cases hq : q = p
      · subst q
        by_cases hu : u = t
        · subst u
          simp [fupd, fupd_fupd]
        · simp [fupd, hu, List.mem_append]
          simpa using (h.supIff p u)
      · simpa [fupd, hq] using (h.supIff q u)
    · intro q
      by_cases hq : q = p
      · subst q
        simp only [setTB_supportedTokens, setBudget_supportedTokens, fupd_same]
        exact nodup_append_singleton _ _ (h.supNodup p) hnotmem
      · simpa [fupd, hq] using h.supNodup q
    · intro q u
      by_cases hq : q = p
      · subst q
        by_cases hu : u = t
        · subst u
          simp [fupd, fupd_fupd]
        · simpa [fupd, hu] using (h.unsupZero p u)
      · simpa [fupd, hq] using (h.unsupZero q u)

end Treasury

namespace Treasury

theorem TInv_withdrawFunds {s s1 : TState} {c now : Nat} {p : Project} {t : Token}
    {r a : Nat} (h : TInv s) (hok : withdrawFunds s c now p t r a = .ok s1) : TInv s1 := by
  unfold withdrawFunds at hok
  dsimp only at hok
  split at hok
  · cases hok
  split at hok
  · cases hok
  split at hok
  · cases hok
  split at hok
  · cases hok
  split at hok
  · cases hok
  split at hok
  · cases hok
  rename_i hrec hamt hact hsupn hauth hbal
  split at hok
  · cases hok
  rename_i smid heq
  split at hok
  · cases hok
  cases hok
  have hmid : smid.tokenBalances = s.tokenBalances ∧ smid.supportedTokens = s.supportedTokens ∧
      ∀ q, (smid.budgets q).spentAmount = (s.budgets q).spentAmount ∧
        (smid.budgets q).allocatedAmount = (s.budgets q).allocatedAmount := by
    split at heq
    · split at heq
      · cases heq
      · split at heq
        · rename_i x sdl hdleq
          cases heq
          obtain ⟨h1, h2, h3, h4, h4b, h4c, h5⟩ :=
            checkDailyLimit_snd_frame s now p a true smid hdleq
          exact ⟨h1, h2, fun q => ⟨(h5 q).1, (h5 q).2.1⟩⟩
        · cases heq
    · cases heq
      exact ⟨rfl, rfl, fun q => ⟨rfl, rfl⟩⟩
  obtain ⟨htb, hsupl, hbud⟩ := hmid
  have hsup : (s.tokenBalances p t).isSupported = true := by
    revert hsupn
    cases (s.tokenBalances p t).isSupported <;> simp
  have hbal2 : a ≤ (s.tokenBalances p t).balance := by omega
  have hmem : t ∈ s.supportedTokens p := (h.supIff p t).mp hsup
  constructor
  · intro q u
    by_cases hq : q = p
    · subst q
      by_cases hu : u = t
      · subst u
        have := h.tbEq p t
        simp [fupd, htb]
        omega
      · simp [fupd, hu, htb]
        exact h.tbEq p u
    · simp [fupd, hq, htb]
      exact h.tbEq q u
  · intro q
    by_cases hq : q = p
    · subst q
      have hnd := h.supNodup p
      have hbq := h.budgetEq p
      have hsum := sumMap_fupd_mem (s.supportedTokens p)
        (fun u => (s.tokenBalances p u).balance) t ((s.tokenBalances p t).balance - a)
        hnd hmem
      have hb1 := (hbud p).1
      have hb2 := (hbud p).2
      unfold sumBal at hbq ⊢
      simp only [setTB_supportedTokens, setBudget_supportedTokens, setTB_tokenBalances,
        setBudget_tokenBalances, setTB_budgets, setBudget_budgets, fupd_same, htb, hsupl]
      rw [map_fupd_proj]
      dsimp only at hsum ⊢
      omega
    · have hbq := h.budgetEq q
      have hb1 := (hbud q).1
      have hb2 := (hbud q).2
      unfold sumBal at hbq ⊢
      simp only [setTB_supportedTokens, setBudget_supportedTokens, setTB_tokenBalances,
        setBudget_tokenBalances, setTB_budgets, setBudget_budgets, htb, hsupl]
      simp only [fupd, hq, ite_false, if_false]
      omega
  · intro q u
    by_cases hq : q = p
    · subst q
      by_cases hu : u = t
      · subst u
        simp [fupd, htb, hsupl, hsup, hmem]
      · simp [fupd, hu, htb, hsupl]
        simpa using h.supIff p u
    · simp [fupd, hq, htb, hsupl]
      simpa using h.supIff q u
  · intro q
    simp only [setTB_supportedTokens, setBudget_supportedTokens, hsupl]
    exact h.supNodup q
  · intro q u
    by_cases hq : q = p
    · subst q
      by_cases hu : u = t
      · subst u
        simp [fupd, htb, hsup]
      · simp [fupd, hu, htb]
        simpa using h.unsupZero p u
    · simp [fupd, hq, htb]
      simpa using h.unsupZero q u

end Treasury

namespace Treasury

theorem TInv_addSupportedToken (s : TState) (p : Project) (t : Token) (h : TInv s) :
    TInv (addSupportedToken s p t) := by
  unfold addSupportedToken
  dsimp only
  split
  · exact h
  case isFalse hsupn =>
    have hsupf : (s.tokenBalances p t).isSupported = false := by
      revert hsupn
      cases (s.tokenBalances p t).isSupported <;> simp
    have htz : s.tokenBalances p t = TokenBalance.zero := h.unsupZero p t hsupf
    have hnotmem : t ∉ s.supportedTokens p := fun hm => by
      have := (h.supIff p t).mpr hm
      rw [hsupf] at this
      cases this
    constructor
    · intro q u
      by_cases hq : q = p
      · subst q
        by_cases hu : u = t
        · subst u
          simp [fupd, htz, TokenBalance.zero]
        · simp [fupd, hu]
          exact h.tbEq p u
      · simp [fupd, hq]
        exact h.tbEq q u
    · intro q
      by_cases hq : q = p
      · subst q
        have hbq := h.budgetEq p
        unfold sumBal at hbq ⊢
        simp only [setTB_supportedTokens, setTB_tokenBalances, setTB_budgets, fupd_same]
        rw [List.map_append, List.sum_append, map_fupd_proj]
        dsimp only
        rw [sumMap_fupd_not_mem _ _ _ _ hnotmem]
        simp [fupd, htz, TokenBalance.zero]
        omega
      · have hbq := h.budgetEq q
        unfold sumBal at hbq ⊢
        simp [fupd, hq]
        omega
    · intro q u
      by_cases hq : q = p
      · subst q
        by_cases hu : u = t
        · subst u
          simp [fupd]
        · simp [fupd, hu, List.mem_append]
          simpa using h.supIff p u
      · simpa [fupd, hq] using h.supIff q u
    · intro q
      by_cases hq : q = p
      · subst q
        simp only [setTB_supportedTokens, fupd_same]
        exact nodup_append_singleton _ _ (h.supNodup p) hnotmem
      · simpa [fupd, hq] using h.supNodup q
    · intro q u
      by_cases hq : q = p
      · subst q
        by_cases hu : u = t
        · subst u
          simp [fupd]
        · simpa [fupd, hu] using h.unsupZero p u
      · simpa [fupd, hq] using h.unsupZero q u

theorem TInv_deployedTreasury (g : Addr) (pf : Token) (ow : Addr) :
    TInv (deployedTreasury g pf ow) := by
  unfold deployedTreasury
  dsimp only
  have hbase : TInv
      { governanceAddr := g, pforkToken := pf, ownerAddr := ow,
        budgets := fun _ => Budget.zero,
        tokenBalances := fun _ _ => TokenBalance.zero,
        supportedTokens := fun _ => [],
        scheduledPayments := fun _ => ScheduledPayment.zero,
        projectScheduledPayments := fun _ => [],
        scheduledPaymentCounter := 0,
        emergencyWithdrawalLimit := 1000 * 10 ^ 18,
        defaultOperatorLimit := 100 * 10 ^ 18,
        defaultDailyLimit := 500 * 10 ^ 18,
        holdings := fun _ => 0 } := by
    constructor
    · intro p t
      rfl
    · intro p
      rfl
    · intro p t
      simp [TokenBalance.zero]
    · intro p
      simp
    · intro p t _
      rfl
  revert hbase
  generalize hb :
      ({ governanceAddr := g, pforkToken := pf, ownerAddr := ow,
         budgets := fun _ => Budget.zero,
         tokenBalances := fun _ _ => TokenBalance.zero,
         supportedTokens := fun _ => [],
         scheduledPayments := fun _ => ScheduledPayment.zero,
         projectScheduledPayments := fun _ => [],
         scheduledPaymentCounter := 0,
         emergencyWithdrawalLimit := 1000 * 10 ^ 18,
         defaultOperatorLimit := 100 * 10 ^ 18,
         defaultDailyLimit := 500 * 10 ^ 18,
         holdings := fun _ => 0 } : TState) = base
  intro hbase
  exact TInv_addSupportedToken _ _ _ (TInv_addSupportedToken _ _ _ (TInv_addSupportedToken _ _ _
    (TInv_addSupportedToken _ _ _ (TInv_addSupportedToken _ _ _ hbase))))

theorem TInv_treasuryApply (o : TOp) (s : TState) (h : TInv s) : TInv (treasuryApply o s) := by
  unfold treasuryApply
  cases hstep : treasuryStep o s with
  | error e => exact h
  | ok s1 =>
    cases o with
    | allocateBudget c p t a wl dl => exact TInv_allocateBudget h hstep
    | withdrawFunds c now p t r a => exact TInv_withdrawFunds h hstep
    | emergencyWithdraw c t r a reason => exact @TInv_emergencyWithdraw s s1 c t r a reason h hstep
    | addProjectOperator c p op => exact TInv_addProjectOperator h hstep
    | removeProjectOperator c p op => exact TInv_removeProjectOperator h hstep
    | createScheduledPayment c now p r t a f tp => exact TInv_createScheduledPayment h hstep
    | executeScheduledPayment c now pid => exact @TInv_executeScheduledPayment s s1 c now pid h hstep

theorem TInv_treasuryRun (s : TState) (ops : List TOp) (h : TInv s) :
    TInv (treasuryRun s ops) := by
  induction ops generalizing s with
  | nil => exact h
  | cons o os ih => exact ih _ (TInv_treasuryApply o s h)

end Treasury

namespace Treasury

/-- `executeScheduledPayment` on success: preconditions that must have held,
the exact mutation of the targeted payment record and of the holdings, and
the frame over everything else. -/
theorem executeScheduledPayment_ok_effects {s s1 : TState} {c now pid : Nat}
    (hok : executeScheduledPayment s c now pid = .ok s1) :
    (s.scheduledPayments pid).isActive = true ∧
    (s.scheduledPayments pid).nextPaymentTime ≤ now ∧
    (s.scheduledPayments pid).remainingPayments ≠ 0 ∧
    (s.scheduledPayments pid).amount ≤ s.holdings (s.scheduledPayments pid).token ∧
    s1.budgets = s.budgets ∧ s1.tokenBalances = s.tokenBalances ∧
    s1.supportedTokens = s.supportedTokens ∧
    s1.scheduledPaymentCounter = s.scheduledPaymentCounter ∧
    s1.projectScheduledPayments = s.projectScheduledPayments ∧
    (∀ j, j ≠ pid → s1.scheduledPayments j = s.scheduledPayments j) ∧
    s1.scheduledPayments pid =
      { s.scheduledPayments pid with
        nextPaymentTime := (s.scheduledPayments pid).nextPaymentTime
          + (s.scheduledPayments pid).frequency
        remainingPayments := (s.scheduledPayments pid).remainingPayments - 1
        isActive := if (s.scheduledPayments pid).remainingPayments - 1 = 0 then false
          else (s.scheduledPayments pid).isActive } ∧
    s1.holdings = fupd s.holdings (s.scheduledPayments pid).token
      (s.holdings (s.scheduledPayments pid).token - (s.scheduledPayments pid).amount) := by
  unfold executeScheduledPayment at hok
  dsimp only at hok
  split at hok
  · cases hok
  split at hok
  · cases hok
  split at hok
  · cases hok
  split at hok
  · cases hok
  cases hok
  rename_i hActive hDue hRem hFunds
  refine ⟨by revert hActive; cases (s.scheduledPayments pid).isActive <;> simp,
    by omega, hRem, by omega, rfl, rfl, rfl, rfl, rfl, ?_, ?_, rfl⟩
  · intro j hj
    simp [fupd, hj]
  · simp [fupd]

/-- `executeScheduledPayment` succeeds exactly on the four documented
preconditions, for every caller. -/
theorem executeScheduledPayment_ok_iff (s : TState) (c now pid : Nat) :
    isOk (executeScheduledPayment s c now pid) = true ↔
      ((s.scheduledPayments pid).isActive = true ∧
       (s.scheduledPayments pid).nextPaymentTime ≤ now ∧
       0 < (s.scheduledPayments pid).remainingPayments ∧
       (s.scheduledPayments pid).amount ≤ s.holdings (s.scheduledPayments pid).token) := by
  unfold executeScheduledPayment
  dsimp only
  split
  · rename_i hA
    simp [isOk]
    intro hx
    exact absurd hx hA
  split
  · rename_i hD
    simp [isOk]
    omega
  split
  · rename_i hR
    simp [isOk]
    omega
  split
  · rename_i hF
    simp [isOk]
    omega
  · rename_i hA hD hR hF
    simp only [isOk, eq_self_iff_true, true_iff]
    refine ⟨by revert hA; cases (s.scheduledPayments pid).isActive <;> simp,
      by omega, by omega, by omega⟩

/-- C1: after every sequence of treasury operations from deployment, every
project budget satisfies `spentAmount ≤ allocatedAmount`. -/
theorem claim_budget_spent_le_allocated (g : Addr) (pf : Token) (ow : Addr)
    (ops : List TOp) (p : Project) :
    ((treasuryRun (deployedTreasury g pf ow) ops).budgets p).spentAmount ≤
      ((treasuryRun (deployedTreasury g pf ow) ops).budgets p).allocatedAmount := by
  have h := TInv_treasuryRun (deployedTreasury g pf ow) ops (TInv_deployedTreasury g pf ow)
  have hb := h.budgetEq p
  omega

end Treasury

namespace Treasury

/-- Success effects of `allocateBudget` on the bookkeeping cells. -/
theorem allocateBudget_ok_effects {s s1 : TState} {c : Addr} {p : Project} {t : Token}
    {a wl dl : Nat} (hok : allocateBudget s c p t a wl dl = .ok s1) :
    (c = s.governanceAddr ∨ c = s.ownerAddr) ∧ a ≠ 0 ∧ t ≠ 0 ∧
    (s1.tokenBalances p t).balance = (s.tokenBalances p t).balance + a ∧
    (s1.tokenBalances p t).totalAllocated = (s.tokenBalances p t).totalAllocated + a ∧
    (s1.tokenBalances p t).totalSpent = (s.tokenBalances p t).totalSpent ∧
    (∀ q u, ¬(q = p ∧ u = t) → s1.tokenBalances q u = s.tokenBalances q u) ∧
    (s1.budgets p).allocatedAmount = (s.budgets p).allocatedAmount + a ∧
    (s1.budgets p).spentAmount = (s.budgets p).spentAmount ∧
    (s1.budgets p).isActive = true ∧
    s1.holdings t = s.holdings t + a ∧
    s1.scheduledPayments = s.scheduledPayments ∧
    s1.scheduledPaymentCounter = s.scheduledPaymentCounter ∧
    s1.projectScheduledPayments = s.projectScheduledPayments := by
  unfold allocateBudget at hok
  dsimp only at hok
  split at hok
  · cases hok
  split at hok
  · cases hok
  split at hok
  · cases hok
  rename_i hauth hamt htok
  cases hok
  have hauth2 : c = s.governanceAddr ∨ c = s.ownerAddr := by
    by_contra hcon
    exact hauth hcon
  unfold addSupportedToken
  dsimp only
  simp only [setTB_tokenBalances, setBudget_tokenBalances, fupd_same]
  split
  · refine ⟨hauth2, hamt, htok, by simp [fupd], by simp [fupd], by simp [fupd], ?_,
      by simp [fupd], by simp [fupd], by simp [fupd], by simp [fupd], rfl, rfl, rfl⟩
    intro q u hqu
    by_cases hq : q = p
    · subst q
      have hu : u ≠ t := fun he => hqu ⟨rfl, he⟩
      simp [fupd, hu]
    · simp [fupd, hq]
  · refine ⟨hauth2, hamt, htok, by simp [fupd, fupd_fupd], by simp [fupd, fupd_fupd],
      by simp [fupd, fupd_fupd], ?_, by simp [fupd], by simp [fupd], by simp [fupd],
      by simp [fupd], rfl, rfl, rfl⟩
    intro q u hqu
    by_cases hq : q = p
    · subst q
      have hu : u ≠ t := fun he => hqu ⟨rfl, he⟩
      simp [fupd, hu]
    · simp [fupd, hq]

/-- Success preconditions and effects of `withdrawFunds` on the bookkeeping
cells (common to the privileged and the operator paths). -/
theorem withdrawFunds_ok_effects {s s1 : TState} {c now : Nat} {p : Project} {t : Token}
    {r a : Nat} (hok : withdrawFunds s c now p t r a = .ok s1) :
    r ≠ 0 ∧ a ≠ 0 ∧ (s.budgets p).isActive = true ∧
    (s.tokenBalances p t).isSupported = true ∧
    (c = s.ownerAddr ∨ c = s.governanceAddr ∨ (s.budgets p).authorizedOperators c = true) ∧
    a ≤ (s.tokenBalances p t).balance ∧
    (s1.tokenBalances p t).balance = (s.tokenBalances p t).balance - a ∧
    (s1.tokenBalances p t).totalSpent = (s.tokenBalances p t).totalSpent + a ∧
    (s1.tokenBalances p t).totalAllocated = (s.tokenBalances p t).totalAllocated ∧
    (∀ q u, ¬(q = p ∧ u = t) → s1.tokenBalances q u = s.tokenBalances q u) ∧
    (s1.budgets p).spentAmount = (s.budgets p).spentAmount + a ∧
    (s1.budgets p).allocatedAmount = (s.budgets p).allocatedAmount ∧
    s1.scheduledPayments = s.scheduledPayments ∧
    s1.scheduledPaymentCounter = s.scheduledPaymentCounter ∧
    s1.projectScheduledPayments = s.projectScheduledPayments := by
  unfold withdrawFunds at hok
  dsimp only at hok
  split at hok
  · cases hok
  split at hok
  · cases hok
  split at hok
  · cases hok
  split at hok
  · cases hok
  split at hok
  · cases hok
  split at hok
  · cases hok
  rename_i hrec hamt hact hsupn hauth hbal
  split at hok
  · cases hok
  rename_i smid heq
  split at hok
  · cases hok
  cases hok
  have hmid : smid.tokenBalances = s.tokenBalances ∧
      smid.scheduledPayments = s.scheduledPayments ∧
      smid.scheduledPaymentCounter = s.scheduledPaymentCounter ∧
      smid.projectScheduledPayments = s.projectScheduledPayments ∧
      ∀ q, (smid.budgets q).spentAmount = (s.budgets q).spentAmount ∧
        (smid.budgets q).allocatedAmount = (s.budgets q).allocatedAmount := by
    split at heq
    · split at heq
      · cases heq
      · split at heq
        · rename_i x sdl hdleq
          cases heq
          obtain ⟨h1, h2, h3, h4, h4b, h4c, h5⟩ :=
            checkDailyLimit_snd_frame s now p a true smid hdleq
          exact ⟨h1, h4, h4b, h4c, fun q => ⟨(h5 q).1, (h5 q).2.1⟩⟩
        · cases heq
    · cases heq
      exact ⟨rfl, rfl, rfl, rfl, fun q => ⟨rfl, rfl⟩⟩
  obtain ⟨htb, hsch, hcnt, hproj, hbud⟩ := hmid
  refine ⟨hrec, hamt,
    by revert hact; cases (s.budgets p).isActive <;> simp,
    by revert hsupn; cases (s.tokenBalances p t).isSupported <;> simp,
    by revert hauth; by_cases hc : c = s.ownerAddr <;> by_cases hg : c = s.governanceAddr <;>
      cases hb2 : (s.budgets p).authorizedOperators c <;> simp [hc, hg, hb2],
    by omega,
    by simp [fupd, htb],
    by simp [fupd, htb],
    by simp [fupd, htb],
    ?_,
    by simp [fupd, (hbud p).1],
    by simp [fupd, (hbud p).2],
    by simp [hsch],
    by simp [hcnt],
    by simp [hproj]⟩
  intro q u hqu
  by_cases hq : q = p
  · subst q
    have hu : u ≠ t := fun he => hqu ⟨rfl, he⟩
    simp [fupd, hu, htb]
  · simp [fupd, hq, htb]

end Treasury

namespace Treasury

/-- The two treasury operations that are allowed to touch token-balance
cells; all others must leave them untouched. -/
def notBalancesOp (o : TOp) : Bool :=
  match o with
  | .allocateBudget _ _ _ _ _ _ => false
  | .withdrawFunds _ _ _ _ _ _ => false
  | _ => true

theorem treasuryApply_tb_frame (s : TState) (o : TOp) (ho : notBalancesOp o = true) :
    (treasuryApply o s).tokenBalances = s.tokenBalances := by
  unfold treasuryApply
  cases hstep : treasuryStep o s with
  | error e => rfl
  | ok s1 =>
    cases o with
    | allocateBudget c p t a wl dl => simp [notBalancesOp] at ho
    | withdrawFunds c now p t r a => simp [notBalancesOp] at ho
    | emergencyWithdraw c t r a reason =>
      unfold treasuryStep emergencyWithdraw at hstep
      dsimp only at hstep
      split at hstep
      · cases hstep
      split at hstep
      · cases hstep
      split at hstep
      · cases hstep
      cases hstep
      rfl
    | addProjectOperator c p op =>
      unfold treasuryStep addProjectOperator at hstep
      dsimp only at hstep
      split at hstep
      · cases hstep
      split at hstep
      · cases hstep
      split at hstep
      · cases hstep
      cases hstep
      rfl
    | removeProjectOperator c p op =>
      unfold treasuryStep removeProjectOperator at hstep
      dsimp only at hstep
      split at hstep
      · cases hstep
      split at hstep
      · cases hstep
      cases hstep
      rfl
    | createScheduledPayment c now p r t a f tp =>
      unfold treasuryStep createScheduledPayment at hstep
      dsimp only at hstep
      split at hstep
      · cases hstep
      split at hstep
      · cases hstep
      split at hstep
      · cases hstep
      split at hstep
      · cases hstep
      split at hstep
      · cases hstep
      cases hstep
      rfl
    | executeScheduledPayment c now pid =>
      obtain ⟨_, _, _, _, _, htb, _⟩ := @executeScheduledPayment_ok_effects s s1 c now pid hstep
      exact htb

/-- C3: `TokenBalance.balance = totalAllocated − totalSpent` for every
project and token after every operation sequence; `allocateBudget` adds the
same amount to `balance` and `totalAllocated`; `withdrawFunds` subtracts
from `balance` exactly what it adds to `totalSpent`; no other operation
changes any token-balance cell. -/
theorem claim_token_balance_conservation :
    (∀ (g : Addr) (pf : Token) (ow : Addr) (ops : List TOp) (p : Project) (t : Token),
      ((treasuryRun (deployedTreasury g pf ow) ops).tokenBalances p t).balance =
        ((treasuryRun (deployedTreasury g pf ow) ops).tokenBalances p t).totalAllocated -
          ((treasuryRun (deployedTreasury g pf ow) ops).tokenBalances p t).totalSpent) ∧
    (∀ (s s1 : TState) (c : Addr) (p : Project) (t : Token) (a wl dl : Nat),
      allocateBudget s c p t a wl dl = .ok s1 →
      (s1.tokenBalances p t).balance = (s.tokenBalances p t).balance + a ∧
      (s1.tokenBalances p t).totalAllocated = (s.tokenBalances p t).totalAllocated + a ∧
      (s1.tokenBalances p t).totalSpent = (s.tokenBalances p t).totalSpent ∧
      ∀ q u, ¬(q = p ∧ u = t) → s1.tokenBalances q u = s.tokenBalances q u) ∧
    (∀ (s s1 : TState) (c now : Nat) (p : Project) (t : Token) (r a : Nat),
      withdrawFunds s c now p t r a = .ok s1 →
      a ≤ (s.tokenBalances p t).balance ∧
      (s1.tokenBalances p t).balance = (s.tokenBalances p t).balance - a ∧
      (s1.tokenBalances p t).totalSpent = (s.tokenBalances p t).totalSpent + a ∧
      (s1.tokenBalances p t).totalAllocated = (s.tokenBalances p t).totalAllocated ∧
      ∀ q u, ¬(q = p ∧ u = t) → s1.tokenBalances q u = s.tokenBalances q u) ∧
    (∀ (s : TState) (o : TOp), notBalancesOp o = true →
      (treasuryApply o s).tokenBalances = s.tokenBalances) := by
  refine ⟨?_, ?_, ?_, treasuryApply_tb_frame⟩
  · intro g pf ow ops p t
    have h := TInv_treasuryRun (deployedTreasury g pf ow) ops (TInv_deployedTreasury g pf ow)
    have he := h.tbEq p t
    omega
  · intro s s1 c p t a wl dl hok
    obtain ⟨_, _, _, h4, h5, h6, h7, _⟩ := allocateBudget_ok_effects hok
    exact ⟨h4, h5, h6, h7⟩
  · intro s s1 c now p t r a hok
    obtain ⟨_, _, _, _, _, h6, h7, h8, h9, h10, _⟩ := withdrawFunds_ok_effects hok
    exact ⟨h6, h7, h8, h9, h10⟩

/-- Concrete instantiation of `claim_token_balance_conservation`: a real
allocation of 100 into PROTOCOL followed by an owner withdrawal of 40, and
an operator-management call that leaves all cells untouched. -/
theorem claim_token_balance_conservation_witness :
    (((treasuryRun (deployedTreasury 1 2 3) []).tokenBalances .PROTOCOL 2).balance =
      ((treasuryRun (deployedTreasury 1 2 3) []).tokenBalances .PROTOCOL 2).totalAllocated -
        ((treasuryRun (deployedTreasury 1 2 3) []).tokenBalances .PROTOCOL 2).totalSpent) ∧
    ((treasuryApply (.allocateBudget 1 .PROTOCOL 2 100 0 0)
        (deployedTreasury 1 2 3)).tokenBalances .PROTOCOL 2).balance =
      ((deployedTreasury 1 2 3).tokenBalances .PROTOCOL 2).balance + 100 ∧
    40 ≤ ((treasuryApply (.allocateBudget 1 .PROTOCOL 2 100 0 0)
        (deployedTreasury 1 2 3)).tokenBalances .PROTOCOL 2).balance ∧
    (treasuryApply (.addProjectOperator 3 .PROTOCOL 9)
        (deployedTreasury 1 2 3)).tokenBalances = (deployedTreasury 1 2 3).tokenBalances := by
  refine ⟨claim_token_balance_conservation.1 1 2 3 [] .PROTOCOL 2,
    (claim_token_balance_conservation.2.1 (deployedTreasury 1 2 3) _ 1 .PROTOCOL 2 100 0 0
      rfl).1,
    (claim_token_balance_conservation.2.2.1
      (treasuryApply (.allocateBudget 1 .PROTOCOL 2 100 0 0) (deployedTreasury 1 2 3)) _
      3 0 .PROTOCOL 2 7 40 rfl).1,
    claim_token_balance_conservation.2.2.2 (deployedTreasury 1 2 3)
      (.addProjectOperator 3 .PROTOCOL 9) rfl⟩

end Treasury

/-- C2: every operation of the governance engine and the treasury ledger is
atomic — whenever a call reverts (returns an error), the observable
post-transaction state is exactly the pre-state, so no field of any
proposal, budget, token balance, scheduled payment, counter or operator set
changes on any failure path (including the daily-limit path inside
`withdrawFunds`, whose partial mutation of `dailySpent` is discarded by the
revert). -/
theorem claim_atomic_failure_keeps_state (o : SysOp) (s : SysState) (e : String)
    (herr : sysStep o s = .error e) : sysApply o s = s := by
  unfold sysApply
  rw [herr]

/-- Concrete instantiation of `claim_atomic_failure_keeps_state`: an
operator withdrawal that exceeds the daily limit reverts and leaves the
combined state untouched, even though `_checkDailyLimit` had already reset
the daily-spend window before rejecting. -/
theorem claim_atomic_failure_keeps_state_witness :
    sysApply
      (.treas (.withdrawFunds 9 100000 .PROTOCOL 2 7 50))
      { govSt := Gov.deployedGov 100 5000 10 3
        treasSt :=
          Treasury.treasuryApply (.addProjectOperator 3 .PROTOCOL 9)
            (Treasury.treasuryApply (.allocateBudget 1 .PROTOCOL 2 100 60 40)
              (Treasury.deployedTreasury 1 2 3)) } =
      { govSt := Gov.deployedGov 100 5000 10 3
        treasSt :=
          Treasury.treasuryApply (.addProjectOperator 3 .PROTOCOL 9)
            (Treasury.treasuryApply (.allocateBudget 1 .PROTOCOL 2 100 60 40)
              (Treasury.deployedTreasury 1 2 3)) } :=
  claim_atomic_failure_keeps_state _ _ "Amount exceeds daily limit" rfl

namespace Treasury

/-- Scheduled-payment well-formedness: slots at or beyond the counter are
untouched.  Holds from deployment and is preserved by every operation. -/
def TWF (s : TState) : Prop :=
  ∀ j, s.scheduledPaymentCounter ≤ j → s.scheduledPayments j = ScheduledPayment.zero

theorem TWF_deployedTreasury (g : Addr) (pf : Token) (ow : Addr) :
    TWF (deployedTreasury g pf ow) := by
  intro j _
  rfl

end Treasury

namespace Treasury

/-- Success preconditions and effects of `createScheduledPayment`. -/
theorem createScheduledPayment_ok_effects {s s1 : TState} {c now : Nat} {p : Project}
    {r : Addr} {t : Token} {a f tp : Nat}
    (hok : createScheduledPayment s c now p r t a f tp = .ok s1) :
    (c = s.ownerAddr ∨ c = s.governanceAddr) ∧ r ≠ 0 ∧ a ≠ 0 ∧ f ≠ 0 ∧ tp ≠ 0 ∧
    s1.scheduledPaymentCounter = s.scheduledPaymentCounter + 1 ∧
    (∀ j, j ≠ s.scheduledPaymentCounter → s1.scheduledPayments j = s.scheduledPayments j) ∧
    s1.scheduledPayments s.scheduledPaymentCounter =
      { id := s.scheduledPaymentCounter, recipient := r, token := t, amount := a,
        frequency := f, nextPaymentTime := now + f, totalPayments := tp,
        remainingPayments := tp, creator := c, isActive := true } ∧
    s1.budgets = s.budgets ∧ s1.tokenBalances = s.tokenBalances ∧
    s1.holdings = s.holdings := by
  unfold createScheduledPayment at hok
  dsimp only at hok
  split at hok
  · cases hok
  split at hok
  · cases hok
  split at hok
  · cases hok
  split at hok
  · cases hok
  split at hok
  · cases hok
  rename_i hauth hrec hamt hfreq htp
  cases hok
  refine ⟨by by_contra hcon; exact hauth (by tauto), hrec, hamt, hfreq, htp,
    rfl, ?_, by simp [fupd], rfl, rfl, rfl⟩
  intro j hj
  simp [fupd, hj]

/-- `TWF` is preserved by every treasury transaction, and the payment
counter never decreases. -/
theorem TWF_treasuryApply (o : TOp) (s : TState) (h : TWF s) :
    TWF (treasuryApply o s) ∧
    s.scheduledPaymentCounter ≤ (treasuryApply o s).scheduledPaymentCounter := by
  unfold treasuryApply
  cases hstep : treasuryStep o s with
  | error e => exact ⟨h, Nat.le_refl _⟩
  | ok s1 =>
    dsimp only
    cases o with
    | allocateBudget c p t a wl dl =>
      obtain ⟨_, _, _, _, _, _, _, _, _, _, _, hsch, hcnt, _⟩ := allocateBudget_ok_effects hstep
      constructor
      · intro j hj
        rw [hsch, hcnt] at *
        exact h j hj
      · rw [hcnt]
    | withdrawFunds c now p t r a =>
      obtain ⟨_, _, _, _, _, _, _, _, _, _, _, _, hsch, hcnt, _⟩ := withdrawFunds_ok_effects hstep
      constructor
      · intro j hj
        rw [hsch, hcnt] at *
        exact h j hj
      · rw [hcnt]
    | emergencyWithdraw c t r a reason =>
      unfold treasuryStep emergencyWithdraw at hstep
      dsimp only at hstep
      split at hstep
      · cases hstep
      split at hstep
      · cases hstep
      split at hstep
      · cases hstep
      cases hstep
      exact ⟨h, Nat.le_refl _⟩
    | addProjectOperator c p op =>
      unfold treasuryStep addProjectOperator at hstep
      dsimp only at hstep
      split at hstep
      · cases hstep
      split at hstep
      · cases hstep
      split at hstep
      · cases hstep
      cases hstep
      exact ⟨h, Nat.le_refl _⟩
    | removeProjectOperator c p op =>
      unfold treasuryStep removeProjectOperator at hstep
      dsimp only at hstep
      split at hstep
      · cases hstep
      split at hstep
      · cases hstep
      cases hstep
      exact ⟨h, Nat.le_refl _⟩
    | createScheduledPayment c now p r t a f tp =>
      obtain ⟨_, _, _, _, _, hcnt, hfr, _, _, _, _⟩ := createScheduledPayment_ok_effects hstep
      constructor
      · intro j hj
        rw [hcnt] at hj
        rw [hfr j (by omega)]
        exact h j (by omega)
      · omega
    | executeScheduledPayment c now pid =>
      obtain ⟨hact, _, _, _, _, _, _, hcnt, _, hfr, _, _⟩ :=
        @executeScheduledPayment_ok_effects s s1 c now pid hstep
      have hlt : pid < s.scheduledPaymentCounter := by
        by_contra hge
        have hz := h pid (by omega)
        rw [hz] at hact
        cases hact
      constructor
      · intro j hj
        rw [hcnt] at hj
        rw [hfr j (by omega)]
        exact h j hj
      · omega

/-- A payment that exists (`pid < counter`) and is inactive is never touched
again by any single transaction. -/
theorem inactivePayment_frame_apply (o : TOp) (s : TState) (pid : Nat) (_hwf : TWF s)
    (hlt : pid < s.scheduledPaymentCounter)
    (hina : (s.scheduledPayments pid).isActive = false) :
    (treasuryApply o s).scheduledPayments pid = s.scheduledPayments pid := by
  unfold treasuryApply
  cases hstep : treasuryStep o s with
  | error e => rfl
  | ok s1 =>
    dsimp only
    cases o with
    | allocateBudget c p t a wl dl =>
      obtain ⟨_, _, _, _, _, _, _, _, _, _, _, hsch, _, _⟩ := allocateBudget_ok_effects hstep
      rw [hsch]
    | withdrawFunds c now p t r a =>
      obtain ⟨_, _, _, _, _, _, _, _, _, _, _, _, hsch, _, _⟩ := withdrawFunds_ok_effects hstep
      rw [hsch]
    | emergencyWithdraw c t r a reason =>
      unfold treasuryStep emergencyWithdraw at hstep
      dsimp only at hstep
      split at hstep
      · cases hstep
      split at hstep
      · cases hstep
      split at hstep
      · cases hstep
      cases hstep
      rfl
    | addProjectOperator c p op =>
      unfold treasuryStep addProjectOperator at hstep
      dsimp only at hstep
      split at hstep
      · cases hstep
      split at hstep
      · cases hstep
      split at hstep
      · cases hstep
      cases hstep
      rfl
    | removeProjectOperator c p op =>
      unfold treasuryStep removeProjectOperator at hstep
      dsimp only at hstep
      split at hstep
      · cases hstep
      split at hstep
      · cases hstep
      cases hstep
      rfl
    | createScheduledPayment c now p r t a f tp =>
      obtain ⟨_, _, _, _, _, _, hfr, _, _, _, _⟩ := createScheduledPayment_ok_effects hstep
      exact hfr pid (by omega)
    | executeScheduledPayment c now pid2 =>
      obtain ⟨hact, _, _, _, _, _, _, _, _, hfr, _, _⟩ :=
        @executeScheduledPayment_ok_effects s s1 c now pid2 hstep
      by_cases hpp : pid = pid2
      · subst pid2
        rw [hina] at hact
        cases hact
      · exact hfr pid hpp

/-- A payment that turned inactive stays untouched under every subsequent
operation sequence. -/
theorem inactivePayment_frame_run (ops : List TOp) (s : TState) (pid : Nat) (hwf : TWF s)
    (hlt : pid < s.scheduledPaymentCounter)
    (hina : (s.scheduledPayments pid).isActive = false) :
    (treasuryRun s ops).scheduledPayments pid = s.scheduledPayments pid := by
  induction ops generalizing s with
  | nil => rfl
  | cons o os ih =>
    have h1 := inactivePayment_frame_apply o s pid hwf hlt hina
    obtain ⟨hwf2, hmono⟩ := TWF_treasuryApply o s hwf
    have hstep : treasuryRun s (o :: os) = treasuryRun (treasuryApply o s) os := rfl
    rw [hstep, ih (treasuryApply o s) hwf2 (by omega) (by rw [h1]; exact hina), h1]

end Treasury

namespace Treasury

/-- C8: `executeScheduledPayment(id)` succeeds for any caller exactly when
the payment is active, due (`now ≥ nextPaymentTime`), has occurrences left
and the treasury holding covers the amount; on success `nextPaymentTime`
advances by `frequency` and `remainingPayments` drops by one, turning
permanently inactive at zero; an under-funded due payment reverts with the
whole state (in particular `remainingPayments`, `nextPaymentTime`)
unchanged, because sufficiency is checked before the decrement. -/
theorem claim_executeScheduledPayment :
    (∀ (s : TState) (c now pid : Nat),
      isOk (executeScheduledPayment s c now pid) = true ↔
        ((s.scheduledPayments pid).isActive = true ∧
         (s.scheduledPayments pid).nextPaymentTime ≤ now ∧
         0 < (s.scheduledPayments pid).remainingPayments ∧
         (s.scheduledPayments pid).amount ≤ s.holdings (s.scheduledPayments pid).token)) ∧
    (∀ (s s1 : TState) (c now pid : Nat), executeScheduledPayment s c now pid = .ok s1 →
      (s1.scheduledPayments pid).nextPaymentTime =
        (s.scheduledPayments pid).nextPaymentTime + (s.scheduledPayments pid).frequency ∧
      (s1.scheduledPayments pid).remainingPayments =
        (s.scheduledPayments pid).remainingPayments - 1 ∧
      ((s.scheduledPayments pid).remainingPayments = 1 →
        (s1.scheduledPayments pid).isActive = false)) ∧
    (∀ (s : TState) (c now pid : Nat),
      (s.scheduledPayments pid).isActive = true →
      (s.scheduledPayments pid).nextPaymentTime ≤ now →
      0 < (s.scheduledPayments pid).remainingPayments →
      s.holdings (s.scheduledPayments pid).token < (s.scheduledPayments pid).amount →
      isOk (executeScheduledPayment s c now pid) = false ∧
      treasuryApply (.executeScheduledPayment c now pid) s = s) ∧
    (∀ (s : TState) (pid : Nat) (ops : List TOp), TWF s →
      pid < s.scheduledPaymentCounter →
      (s.scheduledPayments pid).isActive = false →
      (treasuryRun s ops).scheduledPayments pid = s.scheduledPayments pid) := by
  refine ⟨executeScheduledPayment_ok_iff, ?_, ?_, ?_⟩
  · intro s s1 c now pid hok
    obtain ⟨_, _, _, _, _, _, _, _, _, _, hpay, _⟩ :=
      @executeScheduledPayment_ok_effects s s1 c now pid hok
    rw [hpay]
    refine ⟨rfl, rfl, fun h1 => ?_⟩
    simp [h1]
  · intro s c now pid hact hdue hrem hfund
    have hiff := executeScheduledPayment_ok_iff s c now pid
    have hko : isOk (executeScheduledPayment s c now pid) = false := by
      cases hcase : isOk (executeScheduledPayment s c now pid) with
      | false => rfl
      | true =>
        obtain ⟨_, _, _, hcov⟩ := hiff.mp hcase
        omega
    refine ⟨hko, ?_⟩
    unfold treasuryApply
    cases hstep : treasuryStep (TOp.executeScheduledPayment c now pid) s with
    | error e => rfl
    | ok s1 =>
      have hstep2 : executeScheduledPayment s c now pid = .ok s1 := hstep
      unfold isOk at hko
      rw [hstep2] at hko
      cases hko
  · intro s pid ops hwf hlt hina
    exact inactivePayment_frame_run ops s pid hwf hlt hina

/-- Concrete instantiation of `claim_executeScheduledPayment`: the spec
scenario — a payment of 100 every 86400 s with 3 occurrences, funded by an
allocation; cranking it one second early fails, on time it succeeds with
`remainingPayments` 2 and `nextPaymentTime` advanced; an unfunded payment
fails without consuming an occurrence, and an exhausted one stays frozen. -/
theorem claim_executeScheduledPayment_witness :
    (isOk (executeScheduledPayment
        (treasuryApply (.createScheduledPayment 3 0 .PROTOCOL 7 2 100 86400 3)
          (treasuryApply (.allocateBudget 1 .PROTOCOL 2 1000 0 0)
            (deployedTreasury 1 2 3))) 99 86399 0) = true ↔
      (((treasuryApply (.createScheduledPayment 3 0 .PROTOCOL 7 2 100 86400 3)
          (treasuryApply (.allocateBudget 1 .PROTOCOL 2 1000 0 0)
            (deployedTreasury 1 2 3))).scheduledPayments 0).isActive = true ∧
       ((treasuryApply (.createScheduledPayment 3 0 .PROTOCOL 7 2 100 86400 3)
          (treasuryApply (.allocateBudget 1 .PROTOCOL 2 1000 0 0)
            (deployedTreasury 1 2 3))).scheduledPayments 0).nextPaymentTime ≤ 86399 ∧
       0 < ((treasuryApply (.createScheduledPayment 3 0 .PROTOCOL 7 2 100 86400 3)
          (treasuryApply (.allocateBudget 1 .PROTOCOL 2 1000 0 0)
            (deployedTreasury 1 2 3))).scheduledPayments 0).remainingPayments ∧
       ((treasuryApply (.createScheduledPayment 3 0 .PROTOCOL 7 2 100 86400 3)
          (treasuryApply (.allocateBudget 1 .PROTOCOL 2 1000 0 0)
            (deployedTreasury 1 2 3))).scheduledPayments 0).amount ≤
         (treasuryApply (.createScheduledPayment 3 0 .PROTOCOL 7 2 100 86400 3)
          (treasuryApply (.allocateBudget 1 .PROTOCOL 2 1000 0 0)
            (deployedTreasury 1 2 3))).holdings
           ((treasuryApply (.createScheduledPayment 3 0 .PROTOCOL 7 2 100 86400 3)
            (treasuryApply (.allocateBudget 1 .PROTOCOL 2 1000 0 0)
              (deployedTreasury 1 2 3))).scheduledPayments 0).token)) ∧
    ((treasuryApply (.executeScheduledPayment 99 86400 0)
        (treasuryApply (.createScheduledPayment 3 0 .PROTOCOL 7 2 100 86400 3)
          (treasuryApply (.allocateBudget 1 .PROTOCOL 2 1000 0 0)
            (deployedTreasury 1 2 3)))).scheduledPayments 0).nextPaymentTime =
      ((treasuryApply (.createScheduledPayment 3 0 .PROTOCOL 7 2 100 86400 3)
          (treasuryApply (.allocateBudget 1 .PROTOCOL 2 1000 0 0)
            (deployedTreasury 1 2 3))).scheduledPayments 0).nextPaymentTime + 86400 ∧
    (isOk (executeScheduledPayment
        (treasuryApply (.createScheduledPayment 3 0 .PROTOCOL 7 5 100 86400 3)
          (deployedTreasury 1 2 3)) 99 86400 0) = false ∧
      treasuryApply (.executeScheduledPayment 99 86400 0)
          (treasuryApply (.createScheduledPayment 3 0 .PROTOCOL 7 5 100 86400 3)
            (deployedTreasury 1 2 3)) =
        (treasuryApply (.createScheduledPayment 3 0 .PROTOCOL 7 5 100 86400 3)
          (deployedTreasury 1 2 3))) ∧
    ((treasuryRun
        (treasuryApply (.executeScheduledPayment 99 86400 0)
          (treasuryApply (.createScheduledPayment 3 0 .PROTOCOL 7 2 100 86400 1)
            (treasuryApply (.allocateBudget 1 .PROTOCOL 2 1000 0 0)
              (deployedTreasury 1 2 3))))
        [.allocateBudget 1 .PROTOCOL 2 50 0 0]).scheduledPayments 0 =
      (treasuryApply (.executeScheduledPayment 99 86400 0)
          (treasuryApply (.createScheduledPayment 3 0 .PROTOCOL 7 2 100 86400 1)
            (treasuryApply (.allocateBudget 1 .PROTOCOL 2 1000 0 0)
              (deployedTreasury 1 2 3)))).scheduledPayments 0) := by
  refine ⟨claim_executeScheduledPayment.1 _ 99 86399 0,
    ?_,
    claim_executeScheduledPayment.2.2.1 _ 99 86400 0 rfl (by decide) (by decide) (by decide),
    claim_executeScheduledPayment.2.2.2 _ 0 [.allocateBudget 1 .PROTOCOL 2 50 0 0]
      (TWF_treasuryApply _ _ (TWF_treasuryApply _ _ (TWF_treasuryApply _ _
        (TWF_deployedTreasury 1 2 3)).1).1).1
      (by decide) rfl⟩
  exact (claim_executeScheduledPayment.2.1
    (treasuryApply (.createScheduledPayment 3 0 .PROTOCOL 7 2 100 86400 3)
      (treasuryApply (.allocateBudget 1 .PROTOCOL 2 1000 0 0) (deployedTreasury 1 2 3)))
    (treasuryApply (.executeScheduledPayment 99 86400 0)
      (treasuryApply (.createScheduledPayment 3 0 .PROTOCOL 7 2 100 86400 3)
        (treasuryApply (.allocateBudget 1 .PROTOCOL 2 1000 0 0) (deployedTreasury 1 2 3))))
    99 86400 0 rfl).1

end Treasury

namespace Treasury

/-- C10: a successful `executeScheduledPayment` mutates only the targeted
payment record — every budget, every token-balance cell, the supported-token
lists, the payment counter and the per-project payment index are unchanged,
so scheduled payments are never charged to any budget or custody counter —
and, on an active, due payment with occurrences left, success is decided
solely by the treasury's entire holding of the payment's token. -/
theorem claim_scheduledPayment_frame :
    (∀ (s s1 : TState) (c now pid : Nat), executeScheduledPayment s c now pid = .ok s1 →
      s1.budgets = s.budgets ∧ s1.tokenBalances = s.tokenBalances ∧
      s1.supportedTokens = s.supportedTokens ∧
      s1.scheduledPaymentCounter = s.scheduledPaymentCounter ∧
      s1.projectScheduledPayments = s.projectScheduledPayments ∧
      (∀ j, j ≠ pid → s1.scheduledPayments j = s.scheduledPayments j)) ∧
    (∀ (s : TState) (c now pid : Nat),
      (s.scheduledPayments pid).isActive = true →
      (s.scheduledPayments pid).nextPaymentTime ≤ now →
      0 < (s.scheduledPayments pid).remainingPayments →
      (isOk (executeScheduledPayment s c now pid) = true ↔
        (s.scheduledPayments pid).amount ≤ s.holdings (s.scheduledPayments pid).token)) := by
  constructor
  · intro s s1 c now pid hok
    obtain ⟨_, _, _, _, hb, htb, hsup, hcnt, hproj, hfr, _, _⟩ :=
      @executeScheduledPayment_ok_effects s s1 c now pid hok
    exact ⟨hb, htb, hsup, hcnt, hproj, hfr⟩
  · intro s c now pid hact hdue hrem
    have hiff := executeScheduledPayment_ok_iff s c now pid
    constructor
    · intro hok
      exact (hiff.mp hok).2.2.2
    · intro hcov
      exact hiff.mpr ⟨hact, hdue, hrem, hcov⟩

/-- Concrete instantiation of `claim_scheduledPayment_frame`: executing the
funded payment of the C8 scenario changes no budget and no token-balance
cell, and on a due, active payment the success condition is exactly holding
coverage. -/
theorem claim_scheduledPayment_frame_witness :
    ((treasuryApply (.executeScheduledPayment 99 86400 0)
        (treasuryApply (.createScheduledPayment 3 0 .PROTOCOL 7 2 100 86400 3)
          (treasuryApply (.allocateBudget 1 .PROTOCOL 2 1000 0 0)
            (deployedTreasury 1 2 3)))).budgets =
      (treasuryApply (.createScheduledPayment 3 0 .PROTOCOL 7 2 100 86400 3)
        (treasuryApply (.allocateBudget 1 .PROTOCOL 2 1000 0 0)
          (deployedTreasury 1 2 3))).budgets) ∧
    ((treasuryApply (.executeScheduledPayment 99 86400 0)
        (treasuryApply (.createScheduledPayment 3 0 .PROTOCOL 7 2 100 86400 3)
          (treasuryApply (.allocateBudget 1 .PROTOCOL 2 1000 0 0)
            (deployedTreasury 1 2 3)))).tokenBalances =
      (treasuryApply (.createScheduledPayment 3 0 .PROTOCOL 7 2 100 86400 3)
        (treasuryApply (.allocateBudget 1 .PROTOCOL 2 1000 0 0)
          (deployedTreasury 1 2 3))).tokenBalances) ∧
    (isOk (executeScheduledPayment
        (treasuryApply (.createScheduledPayment 3 0 .PROTOCOL 7 2 100 86400 3)
          (treasuryApply (.allocateBudget 1 .PROTOCOL 2 1000 0 0)
            (deployedTreasury 1 2 3))) 99 86400 0) = true ↔
      ((treasuryApply (.createScheduledPayment 3 0 .PROTOCOL 7 2 100 86400 3)
          (treasuryApply (.allocateBudget 1 .PROTOCOL 2 1000 0 0)
            (deployedTreasury 1 2 3))).scheduledPayments 0).amount ≤
        (treasuryApply (.createScheduledPayment 3 0 .PROTOCOL 7 2 100 86400 3)
          (treasuryApply (.allocateBudget 1 .PROTOCOL 2 1000 0 0)
            (deployedTreasury 1 2 3))).holdings
          ((treasuryApply (.createScheduledPayment 3 0 .PROTOCOL 7 2 100 86400 3)
            (treasuryApply (.allocateBudget 1 .PROTOCOL 2 1000 0 0)
              (deployedTreasury 1 2 3))).scheduledPayments 0).token) := by
  have heff := claim_scheduledPayment_frame.1
    (treasuryApply (.createScheduledPayment 3 0 .PROTOCOL 7 2 100 86400 3)
      (treasuryApply (.allocateBudget 1 .PROTOCOL 2 1000 0 0) (deployedTreasury 1 2 3)))
    (treasuryApply (.executeScheduledPayment 99 86400 0)
      (treasuryApply (.createScheduledPayment 3 0 .PROTOCOL 7 2 100 86400 3)
        (treasuryApply (.allocateBudget 1 .PROTOCOL 2 1000 0 0) (deployedTreasury 1 2 3))))
    99 86400 0 rfl
  exact ⟨heff.1, heff.2.1,
    claim_scheduledPayment_frame.2
      (treasuryApply (.createScheduledPayment 3 0 .PROTOCOL 7 2 100 86400 3)
        (treasuryApply (.allocateBudget 1 .PROTOCOL 2 1000 0 0) (deployedTreasury 1 2 3)))
      99 86400 0 rfl (by decide) (by decide)⟩

end Treasury

namespace Treasury

/-- Success characterisation of `withdrawFunds` for a plain operator
(caller neither owner nor governance): the daily window is applied with the
effective daily spend reset to 0 exactly when the 24h window has elapsed. -/
theorem withdrawFunds_operator_ok_iff (s : TState) (c now : Nat) (p : Project)
    (t : Token) (r a : Nat) (hc1 : c ≠ s.ownerAddr) (hc2 : c ≠ s.governanceAddr) :
    isOk (withdrawFunds s c now p t r a) = true ↔
      (r ≠ 0 ∧ a ≠ 0 ∧ (s.budgets p).isActive = true ∧
       (s.tokenBalances p t).isSupported = true ∧
       (s.budgets p).authorizedOperators c = true ∧
       a ≤ (s.tokenBalances p t).balance ∧
       a ≤ (s.budgets p).withdrawalLimit ∧
       (if now ≥ (s.budgets p).lastWithdrawalTime + oneDay then 0
        else (s.budgets p).dailySpent) + a ≤ (s.budgets p).dailyLimit ∧
       a ≤ s.holdings t) := by
  unfold withdrawFunds
  dsimp only
  split
  case isTrue h =>
    simp [isOk, h]
  split
  case isTrue h =>
    simp [isOk, h]
  split
  case isTrue h =>
    simp only [isOk, Bool.false_eq_true, false_iff]
    rintro ⟨_, _, hact, _⟩
    exact h hact
  split
  case isTrue h =>
    simp only [isOk, Bool.false_eq_true, false_iff]
    rintro ⟨_, _, _, hsup, _⟩
    exact h hsup
  split
  case isTrue h =>
    simp only [isOk, Bool.false_eq_true, false_iff]
    rintro ⟨_, _, _, _, hop, _⟩
    exact h (Or.inr (Or.inr hop))
  split
  case isTrue h =>
    simp only [isOk, Bool.false_eq_true, false_iff]
    rintro ⟨_, _, _, _, _, hbal, _⟩
    omega
  rename_i hr ha hact hsup hauth hbal
  rw [if_pos (show c ≠ s.ownerAddr ∧ c ≠ s.governanceAddr from ⟨hc1, hc2⟩)]
  by_cases hwl : a > (s.budgets p).withdrawalLimit
  · rw [if_pos hwl]
    dsimp only
    simp only [isOk, Bool.false_eq_true, false_iff]
    rintro ⟨_, _, _, _, _, _, hwl2, _⟩
    omega
  · rw [if_neg hwl]
    unfold checkDailyLimit
    dsimp only
    by_cases hwin : now ≥ (s.budgets p).lastWithdrawalTime + oneDay
    · rw [if_pos hwin]
      dsimp only
      by_cases hdl : 0 + a > (s.budgets p).dailyLimit
      · rw [if_pos hdl]
        dsimp only
        simp only [isOk, Bool.false_eq_true, false_iff]
        rintro ⟨_, _, _, _, _, _, _, hd, _⟩
        rw [if_pos hwin] at hd
        omega
      · rw [if_neg hdl]
        dsimp only
        simp only [setTB_holdings, setBudget_holdings]
        by_cases hh : s.holdings t < a
        · rw [if_pos hh]
          simp only [isOk, Bool.false_eq_true, false_iff]
          rintro ⟨_, _, _, _, _, _, _, _, hhold⟩
          omega
        · rw [if_neg hh]
          simp only [isOk, eq_self_iff_true, true_iff]
          refine ⟨hr, ha, by revert hact; cases (s.budgets p).isActive <;> simp,
            by revert hsup; cases (s.tokenBalances p t).isSupported <;> simp,
            ?_, by omega, by omega, ?_, by omega⟩
          · by_cases hop : (s.budgets p).authorizedOperators c = true
            · exact hop
            · exact absurd (by tauto) hauth
          · rw [if_pos hwin]
            omega
    · rw [if_neg hwin]
      by_cases hdl : (s.budgets p).dailySpent + a > (s.budgets p).dailyLimit
      · rw [if_pos hdl]
        dsimp only
        simp only [isOk, Bool.false_eq_true, false_iff]
        rintro ⟨_, _, _, _, _, _, _, hd, _⟩
        rw [if_neg hwin] at hd
        omega
      · rw [if_neg hdl]
        dsimp only
        simp only [setTB_holdings, setBudget_holdings]
        by_cases hh : s.holdings t < a
        · rw [if_pos hh]
          simp only [isOk, Bool.false_eq_true, false_iff]
          rintro ⟨_, _, _, _, _, _, _, _, hhold⟩
          omega
        · rw [if_neg hh]
          simp only [isOk, eq_self_iff_true, true_iff]
          refine ⟨hr, ha, by revert hact; cases (s.budgets p).isActive <;> simp,
            by revert hsup; cases (s.tokenBalances p t).isSupported <;> simp,
            ?_, by omega, by omega, ?_, by omega⟩
          · by_cases hop : (s.budgets p).authorizedOperators c = true
            · exact hop
            · exact absurd (by tauto) hauth
          · rw [if_neg hwin]
            omega

end Treasury

namespace Treasury

/-- Success effects of `withdrawFunds` for a plain operator on the daily
window: the persisted `dailySpent` is the (conditionally reset) counter plus
the amount, and the window anchor is re-anchored exactly when it had
elapsed; the limits and the operator set are untouched, as are the owner
and governance identities. -/
theorem withdrawFunds_operator_ok_effects {s s1 : TState} {c now : Nat} {p : Project}
    {t : Token} {r a : Nat} (hc1 : c ≠ s.ownerAddr) (hc2 : c ≠ s.governanceAddr)
    (hok : withdrawFunds s c now p t r a = .ok s1) :
    (s1.budgets p).dailySpent =
      (if now ≥ (s.budgets p).lastWithdrawalTime + oneDay then 0
       else (s.budgets p).dailySpent) + a ∧
    (s1.budgets p).lastWithdrawalTime =
      (if now ≥ (s.budgets p).lastWithdrawalTime + oneDay then now
       else (s.budgets p).lastWithdrawalTime) ∧
    (s1.budgets p).dailyLimit = (s.budgets p).dailyLimit ∧
    (s1.budgets p).withdrawalLimit = (s.budgets p).withdrawalLimit ∧
    (s1.budgets p).isActive = (s.budgets p).isActive ∧
    (s1.budgets p).authorizedOperators = (s.budgets p).authorizedOperators ∧
    s1.ownerAddr = s.ownerAddr ∧ s1.governanceAddr = s.governanceAddr := by
  unfold withdrawFunds at hok
  dsimp only at hok
  split at hok
  · cases hok
  split at hok
  · cases hok
  split at hok
  · cases hok
  split at hok
  · cases hok
  split at hok
  · cases hok
  split at hok
  · cases hok
  rw [if_pos (show c ≠ s.ownerAddr ∧ c ≠ s.governanceAddr from ⟨hc1, hc2⟩)] at hok
  split at hok
  · cases hok
  rename_i smid heq
  split at hok
  · cases hok
  cases hok
  split at heq
  · cases heq
  split at heq
  case h_2 x hdleq =>
    cases heq
  case h_1 x sdl hdleq =>
    cases heq
    unfold checkDailyLimit at hdleq
    dsimp only at hdleq
    split at hdleq
    case isTrue hwin =>
      split at hdleq
      · cases hdleq
      · rw [Prod.mk.injEq] at hdleq
        obtain ⟨-, hsdl⟩ := hdleq
        subst hsdl
        rw [if_pos hwin, if_pos hwin]
        simp [fupd]
    case isFalse hwin =>
      split at hdleq
      · cases hdleq
      · rw [Prod.mk.injEq] at hdleq
        obtain ⟨-, hsdl⟩ := hdleq
        subst hsdl
        rw [if_neg hwin, if_neg hwin]
        simp [fupd]

end Treasury

namespace Treasury

/-- C7: for a plain-operator caller `withdrawFunds` enforces the daily
window — the effective daily spend is reset to 0 exactly when
`now ≥ lastWithdrawalTime + 1 day`, the call then requires
`dailySpent + amount ≤ dailyLimit`, and on success the window state is
persisted accordingly; hence of two operator withdrawals within one 24h
window whose sum exceeds `dailyLimit` the second fails, and once the window
has elapsed a withdrawal up to `dailyLimit` (meeting the other
preconditions) succeeds. -/
theorem claim_daily_limit :
    (∀ (s : TState) (c now : Nat) (p : Project) (t : Token) (r a : Nat),
      c ≠ s.ownerAddr → c ≠ s.governanceAddr →
      (isOk (withdrawFunds s c now p t r a) = true ↔
        (r ≠ 0 ∧ a ≠ 0 ∧ (s.budgets p).isActive = true ∧
         (s.tokenBalances p t).isSupported = true ∧
         (s.budgets p).authorizedOperators c = true ∧
         a ≤ (s.tokenBalances p t).balance ∧
         a ≤ (s.budgets p).withdrawalLimit ∧
         (if now ≥ (s.budgets p).lastWithdrawalTime + oneDay then 0
          else (s.budgets p).dailySpent) + a ≤ (s.budgets p).dailyLimit ∧
         a ≤ s.holdings t))) ∧
    (∀ (s s1 : TState) (c now : Nat) (p : Project) (t : Token) (r a : Nat),
      c ≠ s.ownerAddr → c ≠ s.governanceAddr →
      withdrawFunds s c now p t r a = .ok s1 →
      (s1.budgets p).dailySpent =
        (if now ≥ (s.budgets p).lastWithdrawalTime + oneDay then 0
         else (s.budgets p).dailySpent) + a ∧
      (s1.budgets p).lastWithdrawalTime =
        (if now ≥ (s.budgets p).lastWithdrawalTime + oneDay then now
         else (s.budgets p).lastWithdrawalTime)) ∧
    (∀ (s s1 : TState) (c1 c2 now1 now2 : Nat) (p : Project) (t1 t2 : Token)
        (r1 r2 a1 a2 : Nat),
      c1 ≠ s.ownerAddr → c1 ≠ s.governanceAddr →
      c2 ≠ s.ownerAddr → c2 ≠ s.governanceAddr →
      withdrawFunds s c1 now1 p t1 r1 a1 = .ok s1 →
      now2 < (s1.budgets p).lastWithdrawalTime + oneDay →
      (s1.budgets p).dailyLimit < a1 + a2 →
      isOk (withdrawFunds s1 c2 now2 p t2 r2 a2) = false) ∧
    (∀ (s : TState) (c now : Nat) (p : Project) (t : Token) (r a : Nat),
      c ≠ s.ownerAddr → c ≠ s.governanceAddr →
      now ≥ (s.budgets p).lastWithdrawalTime + oneDay →
      r ≠ 0 → a ≠ 0 → (s.budgets p).isActive = true →
      (s.tokenBalances p t).isSupported = true →
      (s.budgets p).authorizedOperators c = true →
      a ≤ (s.tokenBalances p t).balance →
      a ≤ (s.budgets p).withdrawalLimit →
      a ≤ (s.budgets p).dailyLimit →
      a ≤ s.holdings t →
      isOk (withdrawFunds s c now p t r a) = true) := by
  refine ⟨fun s c now p t r a hc1 hc2 => withdrawFunds_operator_ok_iff s c now p t r a hc1 hc2,
    ?_, ?_, ?_⟩
  · intro s s1 c now p t r a hc1 hc2 hok
    obtain ⟨h1, h2, _⟩ := withdrawFunds_operator_ok_effects hc1 hc2 hok
    exact ⟨h1, h2⟩
  · intro s s1 c1 c2 now1 now2 p t1 t2 r1 r2 a1 a2 hc11 hc12 hc21 hc22 hok1 hwin hsum
    obtain ⟨hds, hlw, hdl, hwl, hia, hops, hown, hgov⟩ :=
      withdrawFunds_operator_ok_effects hc11 hc12 hok1
    have hc21b : c2 ≠ s1.ownerAddr := by rw [hown]; exact hc21
    have hc22b : c2 ≠ s1.governanceAddr := by rw [hgov]; exact hc22
    have hiff := withdrawFunds_operator_ok_iff s1 c2 now2 p t2 r2 a2 hc21b hc22b
    cases hcase : isOk (withdrawFunds s1 c2 now2 p t2 r2 a2) with
    | false => rfl
    | true =>
      obtain ⟨_, _, _, _, _, _, _, hd2, _⟩ := hiff.mp hcase
      rw [if_neg (by omega)] at hd2
      have hge : a1 ≤ (s1.budgets p).dailySpent := by
        by_cases hw1 : now1 ≥ (s.budgets p).lastWithdrawalTime + oneDay
        · rw [if_pos hw1] at hds
          omega
        · rw [if_neg hw1] at hds
          omega
      omega
  · intro s c now p t r a hc1 hc2 hwin hr ha hact hsup hop hbal hwl hdl hh
    exact (withdrawFunds_operator_ok_iff s c now p t r a hc1 hc2).mpr
      ⟨hr, ha, hact, hsup, hop, hbal, hwl, by rw [if_pos hwin]; omega, hh⟩

end Treasury

namespace Treasury

/-- Concrete instantiation of `claim_daily_limit`: operator 9 on PROTOCOL
(withdrawal limit 60, daily limit 100): a withdrawal of 50 succeeds and
anchors the window; a second withdrawal of 60 in the same window fails
(50 + 60 > 100); after the window has elapsed a withdrawal of 60 succeeds. -/
theorem claim_daily_limit_witness :
    isOk (withdrawFunds
      (treasuryApply (.addProjectOperator 3 .PROTOCOL 9)
        (treasuryApply (.allocateBudget 1 .PROTOCOL 2 1000 60 100)
          (deployedTreasury 1 2 3))) 9 100000 .PROTOCOL 2 7 50) = true ∧
    ((treasuryApply (.withdrawFunds 9 100000 .PROTOCOL 2 7 50)
        (treasuryApply (.addProjectOperator 3 .PROTOCOL 9)
          (treasuryApply (.allocateBudget 1 .PROTOCOL 2 1000 60 100)
            (deployedTreasury 1 2 3)))).budgets .PROTOCOL).dailySpent =
      (if 100000 ≥ ((treasuryApply (.addProjectOperator 3 .PROTOCOL 9)
          (treasuryApply (.allocateBudget 1 .PROTOCOL 2 1000 60 100)
            (deployedTreasury 1 2 3))).budgets .PROTOCOL).lastWithdrawalTime + oneDay
       then 0
       else ((treasuryApply (.addProjectOperator 3 .PROTOCOL 9)
          (treasuryApply (.allocateBudget 1 .PROTOCOL 2 1000 60 100)
            (deployedTreasury 1 2 3))).budgets .PROTOCOL).dailySpent) + 50 ∧
    isOk (withdrawFunds
      (treasuryApply (.withdrawFunds 9 100000 .PROTOCOL 2 7 50)
        (treasuryApply (.addProjectOperator 3 .PROTOCOL 9)
          (treasuryApply (.allocateBudget 1 .PROTOCOL 2 1000 60 100)
            (deployedTreasury 1 2 3)))) 9 150000 .PROTOCOL 2 7 60) = false ∧
    isOk (withdrawFunds
      (treasuryApply (.withdrawFunds 9 100000 .PROTOCOL 2 7 50)
        (treasuryApply (.addProjectOperator 3 .PROTOCOL 9)
          (treasuryApply (.allocateBudget 1 .PROTOCOL 2 1000 60 100)
            (deployedTreasury 1 2 3)))) 9 200000 .PROTOCOL 2 7 60) = true := by
  refine ⟨(claim_daily_limit.1
      (treasuryApply (.addProjectOperator 3 .PROTOCOL 9)
        (treasuryApply (.allocateBudget 1 .PROTOCOL 2 1000 60 100)
          (deployedTreasury 1 2 3))) 9 100000 .PROTOCOL 2 7 50
      (by decide) (by decide)).mpr
      ⟨by decide, by decide, rfl, rfl, rfl, by decide, by decide, by decide, by decide⟩,
    (claim_daily_limit.2.1
      (treasuryApply (.addProjectOperator 3 .PROTOCOL 9)
        (treasuryApply (.allocateBudget 1 .PROTOCOL 2 1000 60 100)
          (deployedTreasury 1 2 3)))
      (treasuryApply (.withdrawFunds 9 100000 .PROTOCOL 2 7 50)
        (treasuryApply (.addProjectOperator 3 .PROTOCOL 9)
          (treasuryApply (.allocateBudget 1 .PROTOCOL 2 1000 60 100)
            (deployedTreasury 1 2 3))))
      9 100000 .PROTOCOL 2 7 50 (by decide) (by decide) rfl).1,
    claim_daily_limit.2.2.1
      (treasuryApply (.addProjectOperator 3 .PROTOCOL 9)
        (treasuryApply (.allocateBudget 1 .PROTOCOL 2 1000 60 100)
          (deployedTreasury 1 2 3)))
      (treasuryApply (.withdrawFunds 9 100000 .PROTOCOL 2 7 50)
        (treasuryApply (.addProjectOperator 3 .PROTOCOL 9)
          (treasuryApply (.allocateBudget 1 .PROTOCOL 2 1000 60 100)
            (deployedTreasury 1 2 3))))
      9 9 100000 150000 .PROTOCOL 2 2 7 7 50 60
      (by decide) (by decide) (by decide) (by decide) rfl (by decide) (by decide),
    claim_daily_limit.2.2.2
      (treasuryApply (.withdrawFunds 9 100000 .PROTOCOL 2 7 50)
        (treasuryApply (.addProjectOperator 3 .PROTOCOL 9)
          (treasuryApply (.allocateBudget 1 .PROTOCOL 2 1000 60 100)
            (deployedTreasury 1 2 3))))
      9 200000 .PROTOCOL 2 7 60
      (by decide) (by decide) (by decide) (by decide) (by decide) rfl rfl rfl
      (by decide) (by decide) (by decide) (by decide)⟩

end Treasury

namespace Gov

/-- Well-formedness of the proposal store: slots at or beyond the counter
are untouched. -/
def GovWF (s : GovState) : Prop :=
  ∀ j, s.proposalCounter ≤ j → s.proposals j = Proposal.zero

/-- Spec invariant 2 (first half): no proposal is both executed and
canceled. -/
def GovMutEx (s : GovState) : Prop :=
  ∀ j, ¬((s.proposals j).executed = true ∧ (s.proposals j).canceled = true)

theorem GovWF_deployedGov (vp q d ow : Nat) : GovWF (deployedGov vp q d ow) :=
  fun _ _ => rfl

theorem GovMutEx_deployedGov (vp q d ow : Nat) : GovMutEx (deployedGov vp q d ow) :=
  fun _ h => by
    have := h.1
    cases this

/-- `createProposal` succeeds exactly on its five `require`s. -/
theorem createProposal_ok_iff (s : GovState) (caller now bal : Nat)
    (title desc : String) (tp : Project) (data : Nat) :
    isOk (createProposal s caller now bal title desc tp data) = true ↔
      (title.length ≠ 0 ∧ desc.length ≠ 0 ∧ s.minProposalThreshold ≤ bal ∧
       s.userProposalCount caller < s.maxProposalsPerAccount ∧
       s.lastProposalTime caller + oneDay ≤ now) := by
  unfold createProposal
  dsimp only
  split
  case isTrue h => simp [isOk, h]
  split
  case isTrue h => simp [isOk, h]
  split
  case isTrue h =>
    simp only [isOk, Bool.false_eq_true, false_iff]
    rintro ⟨_, _, hbal, _⟩
    omega
  split
  case isTrue h =>
    simp only [isOk, Bool.false_eq_true, false_iff]
    rintro ⟨_, _, _, hcnt, _⟩
    omega
  split
  case isTrue h =>
    simp only [isOk, Bool.false_eq_true, false_iff]
    rintro ⟨_, _, _, _, hcool⟩
    omega
  rename_i h1 h2 h3 h4 h5
  simp only [isOk, eq_self_iff_true, true_iff]
  exact ⟨h1, h2, by omega, by omega, by omega⟩

/-- Success effects of `createProposal`. -/
theorem createProposal_ok_effects {s s1 : GovState} {caller now bal : Nat}
    {title desc : String} {tp : Project} {data : Nat}
    (hok : createProposal s caller now bal title desc tp data = .ok s1) :
    s1.proposalCounter = s.proposalCounter + 1 ∧
    (∀ j, j ≠ s.proposalCounter → s1.proposals j = s.proposals j) ∧
    s1.proposals s.proposalCounter =
      { id := s.proposalCounter, title := title, description := desc, proposer := caller,
        startTime := now, endTime := now + s.votingPeriod,
        forVotes := 0, againstVotes := 0, abstainVotes := 0,
        executed := false, canceled := false, hasVoted := fun _ => false,
        voters := [], targetProject := tp, actionHash := data } ∧
    s1.userProposalCount caller = s.userProposalCount caller + 1 ∧
    s1.lastProposalTime caller = now ∧
    s1.minProposalThreshold = s.minProposalThreshold ∧
    s1.maxProposalsPerAccount = s.maxProposalsPerAccount ∧
    s1.votingPeriod = s.votingPeriod ∧ s1.paused = s.paused ∧
    s1.ownerAddr = s.ownerAddr ∧
    (∀ w, w ≠ caller → s1.userProposalCount w = s.userProposalCount w) := by
  unfold createProposal at hok
  dsimp only at hok
  split at hok
  · cases hok
  split at hok
  · cases hok
  split at hok
  · cases hok
  split at hok
  · cases hok
  split at hok
  · cases hok
  cases hok
  refine ⟨rfl, ?_, by simp [fupd], by simp [fupd], by simp [fupd], rfl, rfl, rfl, rfl, rfl, ?_⟩
  · intro j hj
    simp [fupd, hj]
  · intro w hw
    simp [fupd, hw]

/-- Success preconditions and effects of `vote`. -/
theorem vote_ok_effects {s s1 : GovState} {caller now bal pid support : Nat}
    (hok : vote s caller now bal pid support = .ok s1) :
    support ≤ 2 ∧ (s.proposals pid).startTime ≤ now ∧ now ≤ (s.proposals pid).endTime ∧
    (s.proposals pid).hasVoted caller = false ∧
    (s.proposals pid).canceled = false ∧ (s.proposals pid).executed = false ∧
    bal ≠ 0 ∧
    (s1.proposals pid).hasVoted caller = true ∧
    (∀ v, v ≠ caller → (s1.proposals pid).hasVoted v = (s.proposals pid).hasVoted v) ∧
    (s1.proposals pid).voters = (s.proposals pid).voters ++ [caller] ∧
    (s1.proposals pid).forVotes =
      (if support = 1 then (s.proposals pid).forVotes + bal else (s.proposals pid).forVotes) ∧
    (s1.proposals pid).againstVotes =
      (if support = 0 then (s.proposals pid).againstVotes + bal
       else (s.proposals pid).againstVotes) ∧
    (s1.proposals pid).abstainVotes =
      (if support ≠ 1 ∧ support ≠ 0 then (s.proposals pid).abstainVotes + bal
       else (s.proposals pid).abstainVotes) ∧
    (s1.proposals pid).executed = (s.proposals pid).executed ∧
    (s1.proposals pid).canceled = (s.proposals pid).canceled ∧
    (∀ j, j ≠ pid → s1.proposals j = s.proposals j) ∧
    s1.proposalCounter = s.proposalCounter ∧
    s1.userProposalCount = s.userProposalCount := by
  unfold vote at hok
  dsimp only at hok
  split at hok
  · cases hok
  split at hok
  · cases hok
  split at hok
  · cases hok
  split at hok
  · cases hok
  split at hok
  · cases hok
  split at hok
  · cases hok
  split at hok
  · cases hok
  rename_i hsup hst hend hhv hcan hexe hbal
  cases hok
  refine ⟨by omega, by omega, by omega,
    by revert hhv; cases (s.proposals pid).hasVoted caller <;> simp,
    by revert hcan; cases (s.proposals pid).canceled <;> simp,
    by revert hexe; cases (s.proposals pid).executed <;> simp,
    hbal, by simp [fupd], ?_, by simp [fupd], by simp [fupd], by simp [fupd],
    by simp [fupd], by simp [fupd], by simp [fupd], ?_, rfl, rfl⟩
  · intro v hv
    simp [fupd, hv]
  · intro j hj
    simp [fupd, hj]

/-- A voter who has already voted can never vote again on the same
proposal: the call reverts and the observable state is unchanged. -/
theorem vote_already_voted_fails (s : GovState) (caller now bal pid support : Nat)
    (hv : (s.proposals pid).hasVoted caller = true) :
    isOk (vote s caller now bal pid support) = false ∧
    govApply (.vote caller now bal pid support) s = s := by
  have hnotok : ∀ s1, vote s caller now bal pid support = .ok s1 → False := by
    intro s1 hok
    obtain ⟨_, _, _, hfalse, _⟩ := vote_ok_effects hok
    rw [hv] at hfalse
    cases hfalse
  constructor
  · cases hcase : vote s caller now bal pid support with
    | error e => simp [isOk]
    | ok s1 => exact absurd hcase (by intro h; exact hnotok s1 h)
  · unfold govApply
    cases hcase : govStep (.vote caller now bal pid support) s with
    | error e => rfl
    | ok s1 => exact absurd hcase (by intro h; exact absurd h (by intro h2; exact hnotok s1 h2))

end Gov

namespace Gov

/-- `executeProposal` succeeds exactly when the contract is not paused, the
execution delay has strictly passed, the proposal is neither executed nor
canceled, for-votes strictly exceed against-votes, and quorum is met.  (The
source's `totalVotes > 0` require is subsumed by the strict majority.) -/
theorem executeProposal_ok_iff (s : GovState) (c now supply pid : Nat) :
    isOk (executeProposal s c now supply pid) = true ↔
      (s.paused = false ∧
       (s.proposals pid).endTime + s.executionDelay < now ∧
       (s.proposals pid).executed = false ∧
       (s.proposals pid).canceled = false ∧
       (s.proposals pid).againstVotes < (s.proposals pid).forVotes ∧
       supply * s.quorumThreshold / 10000 ≤
         (s.proposals pid).forVotes + (s.proposals pid).againstVotes +
           (s.proposals pid).abstainVotes) := by
  unfold executeProposal
  dsimp only
  split
  case isTrue h =>
    simp only [isOk, Bool.false_eq_true, false_iff]
    rintro ⟨hp, _⟩
    rw [h] at hp
    cases hp
  split
  case isTrue h =>
    simp only [isOk, Bool.false_eq_true, false_iff]
    rintro ⟨_, hdel, _⟩
    omega
  split
  case isTrue h =>
    simp only [isOk, Bool.false_eq_true, false_iff]
    rintro ⟨_, _, hexe, _⟩
    rw [h] at hexe
    cases hexe
  split
  case isTrue h =>
    simp only [isOk, Bool.false_eq_true, false_iff]
    rintro ⟨_, _, _, hcan, _⟩
    rw [h] at hcan
    cases hcan
  split
  case isTrue h =>
    simp only [isOk, Bool.false_eq_true, false_iff]
    rintro ⟨_, _, _, _, hmaj, _⟩
    omega
  split
  case isTrue h =>
    simp only [isOk, Bool.false_eq_true, false_iff]
    rintro ⟨_, _, _, _, hmaj, _⟩
    omega
  split
  case isTrue h =>
    simp only [isOk, Bool.false_eq_true, false_iff]
    rintro ⟨_, _, _, _, _, hquo⟩
    omega
  rename_i hp hdel hexe hcan hnz hmaj hquo
  simp only [isOk, eq_self_iff_true, true_iff]
  refine ⟨by revert hp; cases s.paused <;> simp, by omega,
    by revert hexe; cases (s.proposals pid).executed <;> simp,
    by revert hcan; cases (s.proposals pid).canceled <;> simp,
    by omega, by omega⟩

/-- Success effects of `executeProposal`: sets `executed` and nothing else. -/
theorem executeProposal_ok_effects {s s1 : GovState} {c now supply pid : Nat}
    (hok : executeProposal s c now supply pid = .ok s1) :
    (s.proposals pid).executed = false ∧ (s.proposals pid).canceled = false ∧
    s1.proposals pid = { s.proposals pid with executed := true } ∧
    (∀ j, j ≠ pid → s1.proposals j = s.proposals j) ∧
    s1.proposalCounter = s.proposalCounter ∧ s1.paused = s.paused ∧
    s1.userProposalCount = s.userProposalCount := by
  unfold executeProposal at hok
  dsimp only at hok
  split at hok
  · cases hok
  split at hok
  · cases hok
  split at hok
  · cases hok
  split at hok
  · cases hok
  split at hok
  · cases hok
  split at hok
  · cases hok
  split at hok
  · cases hok
  rename_i hp hdel hexe hcan hnz hmaj hquo
  cases hok
  refine ⟨by revert hexe; cases (s.proposals pid).executed <;> simp,
    by revert hcan; cases (s.proposals pid).canceled <;> simp,
    by simp [fupd], ?_, rfl, rfl, rfl⟩
  intro j hj
  simp [fupd, hj]

/-- Success preconditions and effects of `cancelProposal`. -/
theorem cancelProposal_ok_effects {s s1 : GovState} {c pid : Nat} {reason : String}
    (hok : cancelProposal s c pid reason = .ok s1) :
    (c = (s.proposals pid).proposer ∨ c = s.ownerAddr) ∧
    (s.proposals pid).executed = false ∧ (s.proposals pid).canceled = false ∧
    s1.proposals pid = { s.proposals pid with canceled := true } ∧
    (∀ j, j ≠ pid → s1.proposals j = s.proposals j) ∧
    s1.proposalCounter = s.proposalCounter ∧
    s1.userProposalCount = s.userProposalCount := by
  unfold cancelProposal at hok
  dsimp only at hok
  split at hok
  · cases hok
  split at hok
  · cases hok
  split at hok
  · cases hok
  rename_i hauth hexe hcan
  cases hok
  refine ⟨by by_contra hcon; exact hauth (by tauto),
    by revert hexe; cases (s.proposals pid).executed <;> simp,
    by revert hcan; cases (s.proposals pid).canceled <;> simp,
    by simp [fupd], ?_, rfl, rfl⟩
  intro j hj
  simp [fupd, hj]

/-- The pause switches never touch the proposal store. -/
theorem pause_frame (o : GOp) (s : GovState)
    (ho : (match o with
      | .emergencyPause _ _ => True
      | .emergencyUnpause _ _ => True
      | _ => False)) :
    (govApply o s).proposals = s.proposals ∧
    (govApply o s).proposalCounter = s.proposalCounter ∧
    (govApply o s).userProposalCount = s.userProposalCount := by
  cases o with
  | emergencyPause c reason =>
    unfold govApply
    cases hstep : govStep (.emergencyPause c reason) s with
    | error e => exact ⟨rfl, rfl, rfl⟩
    | ok s1 =>
      have h2 : emergencyPause s c reason = .ok s1 := hstep
      unfold emergencyPause at h2
      split at h2
      · cases h2
      split at h2
      · cases h2
      cases h2
      exact ⟨rfl, rfl, rfl⟩
  | emergencyUnpause c reason =>
    unfold govApply
    cases hstep : govStep (.emergencyUnpause c reason) s with
    | error e => exact ⟨rfl, rfl, rfl⟩
    | ok s1 =>
      have h2 : emergencyUnpause s c reason = .ok s1 := hstep
      unfold emergencyUnpause at h2
      split at h2
      · cases h2
      split at h2
      · cases h2
      cases h2
      exact ⟨rfl, rfl, rfl⟩
  | createProposal c now bal title desc tp data => cases ho
  | vote c now bal pid sup => cases ho
  | executeProposal c now supply pid => cases ho
  | cancelProposal c pid reason => cases ho

end Gov

namespace Gov

/-- The proposal counter never decreases. -/
theorem govApply_counter_mono (o : GOp) (s : GovState) :
    s.proposalCounter ≤ (govApply o s).proposalCounter := by
  unfold govApply
  cases hstep : govStep o s with
  | error e => exact Nat.le_refl _
  | ok s1 =>
    dsimp only
    cases o with
    | createProposal c now bal title desc tp data =>
      obtain ⟨hcnt, _⟩ := createProposal_ok_effects hstep
      omega
    | vote c now bal pid sup =>
      obtain ⟨_, _, _, _, _, _, _, _, _, _, _, _, _, _, _, _, hcnt⟩ := vote_ok_effects hstep
      omega
    | executeProposal c now supply pid =>
      obtain ⟨_, _, _, _, hcnt, _⟩ := @executeProposal_ok_effects s s1 c now supply pid hstep
      omega
    | cancelProposal c pid reason =>
      obtain ⟨_, _, _, _, _, hcnt⟩ := @cancelProposal_ok_effects s s1 c pid reason hstep
      omega
    | emergencyPause c reason =>
      have h2 : emergencyPause s c reason = .ok s1 := hstep
      unfold emergencyPause at h2
      split at h2
      · cases h2
      split at h2
      · cases h2
      cases h2
      exact Nat.le_refl _
    | emergencyUnpause c reason =>
      have h2 : emergencyUnpause s c reason = .ok s1 := hstep
      unfold emergencyUnpause at h2
      split at h2
      · cases h2
      split at h2
      · cases h2
      cases h2
      exact Nat.le_refl _

/-- On an executed or canceled proposal the three mutating proposal calls
always revert. -/
theorem terminal_calls_fail (s : GovState) (pid : Nat)
    (hterm : (s.proposals pid).executed = true ∨ (s.proposals pid).canceled = true) :
    (∀ c now bal sup, isOk (vote s c now bal pid sup) = false) ∧
    (∀ c now supply, isOk (executeProposal s c now supply pid) = false) ∧
    (∀ c reason, isOk (cancelProposal s c pid reason) = false) := by
  refine ⟨?_, ?_, ?_⟩
  · intro c now bal sup
    cases hcase : vote s c now bal pid sup with
    | error e => rfl
    | ok s1 =>
      obtain ⟨_, _, _, _, hcan, hexe, _⟩ := vote_ok_effects hcase
      rcases hterm with h | h
      · rw [h] at hexe
        cases hexe
      · rw [h] at hcan
        cases hcan
  · intro c now supply
    cases hcase : executeProposal s c now supply pid with
    | error e => rfl
    | ok s1 =>
      obtain ⟨hexe, hcan, _⟩ := executeProposal_ok_effects hcase
      rcases hterm with h | h
      · rw [h] at hexe
        cases hexe
      · rw [h] at hcan
        cases hcan
  · intro c reason
    cases hcase : cancelProposal s c pid reason with
    | error e => rfl
    | ok s1 =>
      obtain ⟨_, hexe, hcan, _⟩ := cancelProposal_ok_effects hcase
      rcases hterm with h | h
      · rw [h] at hexe
        cases hexe
      · rw [h] at hcan
        cases hcan

/-- An existing (`pid < counter`) terminal proposal is untouched by every
single transaction. -/
theorem terminal_frame_apply (o : GOp) (s : GovState) (pid : Nat)
    (hlt : pid < s.proposalCounter)
    (hterm : (s.proposals pid).executed = true ∨ (s.proposals pid).canceled = true) :
    (govApply o s).proposals pid = s.proposals pid := by
  unfold govApply
  cases hstep : govStep o s with
  | error e => rfl
  | ok s1 =>
    dsimp only
    cases o with
    | createProposal c now bal title desc tp data =>
      obtain ⟨_, hfr, _⟩ := createProposal_ok_effects hstep
      exact hfr pid (by omega)
    | vote c now bal pid2 sup =>
      by_cases hpp : pid = pid2
      · subst pid2
        obtain ⟨_, _, _, _, hcan, hexe, _⟩ := vote_ok_effects hstep
        rcases hterm with h | h
        · rw [h] at hexe
          cases hexe
        · rw [h] at hcan
          cases hcan
      · obtain ⟨_, _, _, _, _, _, _, _, _, _, _, _, _, _, _, hfr, _⟩ := vote_ok_effects hstep
        exact hfr pid hpp
    | executeProposal c now supply pid2 =>
      by_cases hpp : pid = pid2
      · subst pid2
        obtain ⟨hexe, hcan, _⟩ := @executeProposal_ok_effects s s1 c now supply pid hstep
        rcases hterm with h | h
        · rw [h] at hexe
          cases hexe
        · rw [h] at hcan
          cases hcan
      · obtain ⟨_, _, _, hfr, _⟩ := @executeProposal_ok_effects s s1 c now supply pid2 hstep
        exact hfr pid hpp
    | cancelProposal c pid2 reason =>
      by_cases hpp : pid = pid2
      · subst pid2
        obtain ⟨_, hexe, hcan, _⟩ := @cancelProposal_ok_effects s s1 c pid reason hstep
        rcases hterm with h | h
        · rw [h] at hexe
          cases hexe
        · rw [h] at hcan
          cases hcan
      · obtain ⟨_, _, _, _, hfr, _⟩ := @cancelProposal_ok_effects s s1 c pid2 reason hstep
        exact hfr pid hpp
    | emergencyPause c reason =>
      have hp := pause_frame (.emergencyPause c reason) s trivial
      have : govApply (.emergencyPause c reason) s = s1 := by
        unfold govApply
        rw [hstep]
      rw [← this]
      rw [hp.1]
    | emergencyUnpause c reason =>
      have hp := pause_frame (.emergencyUnpause c reason) s trivial
      have : govApply (.emergencyUnpause c reason) s = s1 := by
        unfold govApply
        rw [hstep]
      rw [← this]
      rw [hp.1]

/-- An existing terminal proposal survives any operation sequence
untouched. -/
theorem terminal_frame_run (ops : List GOp) (s : GovState) (pid : Nat)
    (hlt : pid < s.proposalCounter)
    (hterm : (s.proposals pid).executed = true ∨ (s.proposals pid).canceled = true) :
    (govRun s ops).proposals pid = s.proposals pid := by
  induction ops generalizing s with
  | nil => rfl
  | cons o os ih =>
    have h1 := terminal_frame_apply o s pid hlt hterm
    have hmono := govApply_counter_mono o s
    have hstep : govRun s (o :: os) = govRun (govApply o s) os := rfl
    rw [hstep, ih (govApply o s) (by omega) (by rw [h1]; exact hterm), h1]

/-- `hasVoted` is monotone on existing proposals under every transaction. -/
theorem hasVoted_mono_apply (o : GOp) (s : GovState) (pid v : Nat)
    (hlt : pid < s.proposalCounter)
    (hv : (s.proposals pid).hasVoted v = true) :
    ((govApply o s).proposals pid).hasVoted v = true := by
  unfold govApply
  cases hstep : govStep o s with
  | error e => exact hv
  | ok s1 =>
    dsimp only
    cases o with
    | createProposal c now bal title desc tp data =>
      obtain ⟨_, hfr, _⟩ := createProposal_ok_effects hstep
      rw [hfr pid (by omega)]
      exact hv
    | vote c now bal pid2 sup =>
      by_cases hpp : pid = pid2
      · subst pid2
        obtain ⟨_, _, _, _, _, _, _, hset, hoth, _⟩ := vote_ok_effects hstep
        by_cases hvc : v = c
        · subst v
          exact hset
        · rw [hoth v hvc]
          exact hv
      · obtain ⟨_, _, _, _, _, _, _, _, _, _, _, _, _, _, _, hfr, _⟩ := vote_ok_effects hstep
        rw [hfr pid hpp]
        exact hv
    | executeProposal c now supply pid2 =>
      by_cases hpp : pid = pid2
      · subst pid2
        obtain ⟨_, _, hset, _⟩ := @executeProposal_ok_effects s s1 c now supply pid hstep
        rw [hset]
        exact hv
      · obtain ⟨_, _, _, hfr, _⟩ := @executeProposal_ok_effects s s1 c now supply pid2 hstep
        rw [hfr pid hpp]
        exact hv
    | cancelProposal c pid2 reason =>
      by_cases hpp : pid = pid2
      · subst pid2
        obtain ⟨_, _, _, hset, _⟩ := @cancelProposal_ok_effects s s1 c pid reason hstep
        rw [hset]
        exact hv
      · obtain ⟨_, _, _, _, hfr, _⟩ := @cancelProposal_ok_effects s s1 c pid2 reason hstep
        rw [hfr pid hpp]
        exact hv
    | emergencyPause c reason =>
      have hp := pause_frame (.emergencyPause c reason) s trivial
      have heq : govApply (.emergencyPause c reason) s = s1 := by
        unfold govApply
        rw [hstep]
      rw [← heq, hp.1]
      exact hv
    | emergencyUnpause c reason =>
      have hp := pause_frame (.emergencyUnpause c reason) s trivial
      have heq : govApply (.emergencyUnpause c reason) s = s1 := by
        unfold govApply
        rw [hstep]
      rw [← heq, hp.1]
      exact hv

/-- `hasVoted` monotone over whole operation sequences. -/
theorem hasVoted_mono_run (ops : List GOp) (s : GovState) (pid v : Nat)
    (hlt : pid < s.proposalCounter)
    (hv : (s.proposals pid).hasVoted v = true) :
    ((govRun s ops).proposals pid).hasVoted v = true := by
  induction ops generalizing s with
  | nil => exact hv
  | cons o os ih =>
    have h1 := hasVoted_mono_apply o s pid v hlt hv
    have hmono := govApply_counter_mono o s
    exact ih (govApply o s) (by omega) h1

/-- `GovMutEx` is preserved by every transaction. -/
theorem GovMutEx_govApply (o : GOp) (s : GovState) (h : GovMutEx s) :
    GovMutEx (govApply o s) := by
  unfold govApply
  cases hstep : govStep o s with
  | error e => exact h
  | ok s1 =>
    dsimp only
    intro j hj
    cases o with
    | createProposal c now bal title desc tp data =>
      obtain ⟨_, hfr, hnew, _⟩ := createProposal_ok_effects hstep
      by_cases hjc : j = s.proposalCounter
      · subst j
        rw [hnew] at hj
        cases hj.1
      · rw [hfr j hjc] at hj
        exact h j hj
    | vote c now bal pid sup =>
      by_cases hpp : j = pid
      · subst j
        obtain ⟨_, _, _, _, _, _, _, _, _, _, _, _, _, hexe, hcan, _⟩ := vote_ok_effects hstep
        rw [hexe, hcan] at hj
        exact h pid hj
      · obtain ⟨_, _, _, _, _, _, _, _, _, _, _, _, _, _, _, hfr, _⟩ := vote_ok_effects hstep
        rw [hfr j hpp] at hj
        exact h j hj
    | executeProposal c now supply pid =>
      by_cases hpp : j = pid
      · subst j
        obtain ⟨_, hcan, hset, _⟩ := @executeProposal_ok_effects s s1 c now supply pid hstep
        rw [hset] at hj
        have : (s.proposals pid).canceled = true := hj.2
        rw [hcan] at this
        cases this
      · obtain ⟨_, _, _, hfr, _⟩ := @executeProposal_ok_effects s s1 c now supply pid hstep
        rw [hfr j hpp] at hj
        exact h j hj
    | cancelProposal c pid reason =>
      by_cases hpp : j = pid
      · subst j
        obtain ⟨_, hexe, _, hset, _⟩ := @cancelProposal_ok_effects s s1 c pid reason hstep
        rw [hset] at hj
        have : (s.proposals pid).executed = true := hj.1
        rw [hexe] at this
        cases this
      · obtain ⟨_, _, _, _, hfr, _⟩ := @cancelProposal_ok_effects s s1 c pid reason hstep
        rw [hfr j hpp] at hj
        exact h j hj
    | emergencyPause c reason =>
      have hp := pause_frame (.emergencyPause c reason) s trivial
      have heq : govApply (.emergencyPause c reason) s = s1 := by
        unfold govApply
        rw [hstep]
      rw [← heq, hp.1] at hj
      exact h j hj
    | emergencyUnpause c reason =>
      have hp := pause_frame (.emergencyUnpause c reason) s trivial
      have heq : govApply (.emergencyUnpause c reason) s = s1 := by
        unfold govApply
        rw [hstep]
      rw [← heq, hp.1] at hj
      exact h j hj

/-- `GovMutEx` holds after any run from deployment. -/
theorem GovMutEx_govRun (vp q d ow : Nat) (ops : List GOp) :
    GovMutEx (govRun (deployedGov vp q d ow) ops) := by
  have hbase := GovMutEx_deployedGov vp q d ow
  revert hbase
  generalize deployedGov vp q d ow = s
  induction ops generalizing s with
  | nil => exact fun h => h
  | cons o os ih => exact fun h => ih (govApply o s) (GovMutEx_govApply o s h)

end Gov

namespace Gov

/-- C5: a first successful `vote` flips `hasVoted[caller]` from false to
true, appends the caller to the voter set and adds the live balance to
exactly the tally selected by `support`; any second vote by the same voter
on the same proposal reverts with the whole state unchanged; and on an
existing proposal `hasVoted` is never reset by any operation sequence. -/
theorem claim_vote_once :
    (∀ (s s1 : GovState) (caller now bal pid support : Nat),
      vote s caller now bal pid support = .ok s1 →
      (s.proposals pid).hasVoted caller = false ∧
      (s1.proposals pid).hasVoted caller = true ∧
      (s1.proposals pid).voters = (s.proposals pid).voters ++ [caller] ∧
      (support = 1 →
        (s1.proposals pid).forVotes = (s.proposals pid).forVotes + bal ∧
        (s1.proposals pid).againstVotes = (s.proposals pid).againstVotes ∧
        (s1.proposals pid).abstainVotes = (s.proposals pid).abstainVotes) ∧
      (support = 0 →
        (s1.proposals pid).forVotes = (s.proposals pid).forVotes ∧
        (s1.proposals pid).againstVotes = (s.proposals pid).againstVotes + bal ∧
        (s1.proposals pid).abstainVotes = (s.proposals pid).abstainVotes) ∧
      (support = 2 →
        (s1.proposals pid).forVotes = (s.proposals pid).forVotes ∧
        (s1.proposals pid).againstVotes = (s.proposals pid).againstVotes ∧
        (s1.proposals pid).abstainVotes = (s.proposals pid).abstainVotes + bal)) ∧
    (∀ (s : GovState) (caller now bal pid support : Nat),
      (s.proposals pid).hasVoted caller = true →
      isOk (vote s caller now bal pid support) = false ∧
      govApply (.vote caller now bal pid support) s = s) ∧
    (∀ (s : GovState) (pid v : Nat) (ops : List GOp),
      pid < s.proposalCounter →
      (s.proposals pid).hasVoted v = true →
      ((govRun s ops).proposals pid).hasVoted v = true) := by
  refine ⟨?_, fun s caller now bal pid support hv =>
      vote_already_voted_fails s caller now bal pid support hv,
    fun s pid v ops hlt hv => hasVoted_mono_run ops s pid v hlt hv⟩
  intro s s1 caller now bal pid support hok
  obtain ⟨hsup, _, _, hbefore, _, _, _, hafter, _, hvoters, hfor, hagainst, habstain, _⟩ :=
    vote_ok_effects hok
  refine ⟨hbefore, hafter, hvoters, ?_, ?_, ?_⟩
  · intro h1
    subst h1
    rw [hfor, hagainst, habstain]
    norm_num
  · intro h0
    subst h0
    rw [hfor, hagainst, habstain]
    norm_num
  · intro h2
    subst h2
    rw [hfor, hagainst, habstain]
    norm_num

/-- Concrete instantiation of `claim_vote_once`: on a live proposal, voter
44 with balance 5000 votes FOR successfully (tally +5000); the same voter's
second vote reverts and changes nothing, and `hasVoted` stays set under a
later operation. -/
theorem claim_vote_once_witness :
    ((govApply (.createProposal 44 86400 (1000 * 10 ^ 18) "T" "D" .DEX 0)
        (deployedGov 1000 5000 10 3)).proposals 0).hasVoted 44 = false ∧
    ((govApply (.vote 44 86500 5000 0 1)
        (govApply (.createProposal 44 86400 (1000 * 10 ^ 18) "T" "D" .DEX 0)
          (deployedGov 1000 5000 10 3))).proposals 0).hasVoted 44 = true ∧
    isOk (vote
      (govApply (.vote 44 86500 5000 0 1)
        (govApply (.createProposal 44 86400 (1000 * 10 ^ 18) "T" "D" .DEX 0)
          (deployedGov 1000 5000 10 3))) 44 86600 5000 0 0) = false ∧
    govApply (.vote 44 86600 5000 0 0)
      (govApply (.vote 44 86500 5000 0 1)
        (govApply (.createProposal 44 86400 (1000 * 10 ^ 18) "T" "D" .DEX 0)
          (deployedGov 1000 5000 10 3))) =
      (govApply (.vote 44 86500 5000 0 1)
        (govApply (.createProposal 44 86400 (1000 * 10 ^ 18) "T" "D" .DEX 0)
          (deployedGov 1000 5000 10 3))) ∧
    ((govRun
        (govApply (.vote 44 86500 5000 0 1)
          (govApply (.createProposal 44 86400 (1000 * 10 ^ 18) "T" "D" .DEX 0)
            (deployedGov 1000 5000 10 3)))
        [.emergencyPause 3 "stop"]).proposals 0).hasVoted 44 = true := by
  have h1 := claim_vote_once.1
    (govApply (.createProposal 44 86400 (1000 * 10 ^ 18) "T" "D" .DEX 0)
      (deployedGov 1000 5000 10 3))
    (govApply (.vote 44 86500 5000 0 1)
      (govApply (.createProposal 44 86400 (1000 * 10 ^ 18) "T" "D" .DEX 0)
        (deployedGov 1000 5000 10 3)))
    44 86500 5000 0 1 (by rfl)
  have h2 := claim_vote_once.2.1
    (govApply (.vote 44 86500 5000 0 1)
      (govApply (.createProposal 44 86400 (1000 * 10 ^ 18) "T" "D" .DEX 0)
        (deployedGov 1000 5000 10 3)))
    44 86600 5000 0 0 h1.2.1
  exact ⟨h1.1, h1.2.1, h2.1, h2.2,
    claim_vote_once.2.2
      (govApply (.vote 44 86500 5000 0 1)
        (govApply (.createProposal 44 86400 (1000 * 10 ^ 18) "T" "D" .DEX 0)
          (deployedGov 1000 5000 10 3)))
      0 44 [.emergencyPause 3 "stop"] (by decide) h1.2.1⟩

/-- C6: `executed` and `canceled` are never both true on any proposal after
any run from deployment, and an existing proposal that is executed or
canceled is terminal: `vote`, `executeProposal` and `cancelProposal` all
revert on it, and no operation sequence changes any of its fields. -/
theorem claim_terminal_proposals :
    (∀ (vp q d ow : Nat) (ops : List GOp) (j : Nat),
      ¬(((govRun (deployedGov vp q d ow) ops).proposals j).executed = true ∧
        ((govRun (deployedGov vp q d ow) ops).proposals j).canceled = true)) ∧
    (∀ (s : GovState) (pid : Nat),
      pid < s.proposalCounter →
      ((s.proposals pid).executed = true ∨ (s.proposals pid).canceled = true) →
      (∀ c now bal sup, isOk (vote s c now bal pid sup) = false) ∧
      (∀ c now supply, isOk (executeProposal s c now supply pid) = false) ∧
      (∀ c reason, isOk (cancelProposal s c pid reason) = false) ∧
      (∀ ops, (govRun s ops).proposals pid = s.proposals pid)) := by
  refine ⟨fun vp q d ow ops j => GovMutEx_govRun vp q d ow ops j, ?_⟩
  intro s pid hlt hterm
  obtain ⟨h1, h2, h3⟩ := terminal_calls_fail s pid hterm
  exact ⟨h1, h2, h3, fun ops => terminal_frame_run ops s pid hlt hterm⟩

/-- Concrete instantiation of `claim_terminal_proposals`: after proposal 0
is canceled by its proposer, mutual exclusion holds, all three mutating
calls revert on it, and a further operation leaves the record unchanged. -/
theorem claim_terminal_proposals_witness :
    ¬(((govRun (deployedGov 1000 5000 10 3)
        [.createProposal 44 86400 (1000 * 10 ^ 18) "T" "D" .DEX 0,
         .cancelProposal 44 0 "nope"]).proposals 0).executed = true ∧
      ((govRun (deployedGov 1000 5000 10 3)
        [.createProposal 44 86400 (1000 * 10 ^ 18) "T" "D" .DEX 0,
         .cancelProposal 44 0 "nope"]).proposals 0).canceled = true) ∧
    isOk (vote (govRun (deployedGov 1000 5000 10 3)
        [.createProposal 44 86400 (1000 * 10 ^ 18) "T" "D" .DEX 0,
         .cancelProposal 44 0 "nope"]) 44 86500 5000 0 1) = false ∧
    isOk (executeProposal (govRun (deployedGov 1000 5000 10 3)
        [.createProposal 44 86400 (1000 * 10 ^ 18) "T" "D" .DEX 0,
         .cancelProposal 44 0 "nope"]) 44 999999 10000 0) = false ∧
    isOk (cancelProposal (govRun (deployedGov 1000 5000 10 3)
        [.createProposal 44 86400 (1000 * 10 ^ 18) "T" "D" .DEX 0,
         .cancelProposal 44 0 "nope"]) 3 0 "again") = false ∧
    (govRun (govRun (deployedGov 1000 5000 10 3)
        [.createProposal 44 86400 (1000 * 10 ^ 18) "T" "D" .DEX 0,
         .cancelProposal 44 0 "nope"])
      [.emergencyPause 3 "stop"]).proposals 0 =
      (govRun (deployedGov 1000 5000 10 3)
        [.createProposal 44 86400 (1000 * 10 ^ 18) "T" "D" .DEX 0,
         .cancelProposal 44 0 "nope"]).proposals 0 := by
  have hm := claim_terminal_proposals.1 1000 5000 10 3
    [.createProposal 44 86400 (1000 * 10 ^ 18) "T" "D" .DEX 0,
     .cancelProposal 44 0 "nope"] 0
  have ht := claim_terminal_proposals.2
    (govRun (deployedGov 1000 5000 10 3)
      [.createProposal 44 86400 (1000 * 10 ^ 18) "T" "D" .DEX 0,
       .cancelProposal 44 0 "nope"]) 0 (by decide) (Or.inr (by rfl))
  exact ⟨hm, ht.1 44 86500 5000 1, ht.2.1 44 999999 10000, ht.2.2.1 3 "again",
    ht.2.2.2 [.emergencyPause 3 "stop"]⟩

end Gov

namespace Gov

/-- C4 (as frozen) is falsified by the pause gate: a concrete run reaches a
paused state whose proposal 0 satisfies every condition the claim lists —
delay passed, not executed, not canceled, strict majority, quorum met — yet
`executeProposal` reverts (with "Contract is paused"). -/
theorem claim_executeProposal_pause_counterexample :
    ((govRun (deployedGov 100 0 10 3)
        [.createProposal 44 86400 (1000 * 10 ^ 18) "T" "D" .DEX 0,
         .vote 44 86450 5000 0 1,
         .emergencyPause 3 "maintenance"]).proposals 0).endTime +
      (govRun (deployedGov 100 0 10 3)
        [.createProposal 44 86400 (1000 * 10 ^ 18) "T" "D" .DEX 0,
         .vote 44 86450 5000 0 1,
         .emergencyPause 3 "maintenance"]).executionDelay < 100000 ∧
    ((govRun (deployedGov 100 0 10 3)
        [.createProposal 44 86400 (1000 * 10 ^ 18) "T" "D" .DEX 0,
         .vote 44 86450 5000 0 1,
         .emergencyPause 3 "maintenance"]).proposals 0).executed = false ∧
    ((govRun (deployedGov 100 0 10 3)
        [.createProposal 44 86400 (1000 * 10 ^ 18) "T" "D" .DEX 0,
         .vote 44 86450 5000 0 1,
         .emergencyPause 3 "maintenance"]).proposals 0).canceled = false ∧
    ((govRun (deployedGov 100 0 10 3)
        [.createProposal 44 86400 (1000 * 10 ^ 18) "T" "D" .DEX 0,
         .vote 44 86450 5000 0 1,
         .emergencyPause 3 "maintenance"]).proposals 0).againstVotes <
      ((govRun (deployedGov 100 0 10 3)
        [.createProposal 44 86400 (1000 * 10 ^ 18) "T" "D" .DEX 0,
         .vote 44 86450 5000 0 1,
         .emergencyPause 3 "maintenance"]).proposals 0).forVotes ∧
    10000 * (govRun (deployedGov 100 0 10 3)
        [.createProposal 44 86400 (1000 * 10 ^ 18) "T" "D" .DEX 0,
         .vote 44 86450 5000 0 1,
         .emergencyPause 3 "maintenance"]).quorumThreshold / 10000 ≤
      ((govRun (deployedGov 100 0 10 3)
        [.createProposal 44 86400 (1000 * 10 ^ 18) "T" "D" .DEX 0,
         .vote 44 86450 5000 0 1,
         .emergencyPause 3 "maintenance"]).proposals 0).forVotes +
      ((govRun (deployedGov 100 0 10 3)
        [.createProposal 44 86400 (1000 * 10 ^ 18) "T" "D" .DEX 0,
         .vote 44 86450 5000 0 1,
         .emergencyPause 3 "maintenance"]).proposals 0).againstVotes +
      ((govRun (deployedGov 100 0 10 3)
        [.createProposal 44 86400 (1000 * 10 ^ 18) "T" "D" .DEX 0,
         .vote 44 86450 5000 0 1,
         .emergencyPause 3 "maintenance"]).proposals 0).abstainVotes ∧
    isOk (executeProposal (govRun (deployedGov 100 0 10 3)
        [.createProposal 44 86400 (1000 * 10 ^ 18) "T" "D" .DEX 0,
         .vote 44 86450 5000 0 1,
         .emergencyPause 3 "maintenance"]) 44 100000 10000 0) = false := by
  decide

/-- C4 (amended with the pause gate): `executeProposal(id)` succeeds exactly
when the contract is not paused, `now > endTime + executionDelay`, the
proposal is neither executed nor canceled, `forVotes > againstVotes`, and
the aggregate votes reach `quorumThreshold` basis points of the current
total supply; on success it sets `executed := true` and touches nothing
else, a call at or before `endTime + executionDelay` (in particular one
second before) fails, and any repeated call after success fails. -/
theorem claim_executeProposal_charact :
    (∀ (s : GovState) (c now supply pid : Nat),
      isOk (executeProposal s c now supply pid) = true ↔
        (s.paused = false ∧
         (s.proposals pid).endTime + s.executionDelay < now ∧
         (s.proposals pid).executed = false ∧
         (s.proposals pid).canceled = false ∧
         (s.proposals pid).againstVotes < (s.proposals pid).forVotes ∧
         supply * s.quorumThreshold / 10000 ≤
           (s.proposals pid).forVotes + (s.proposals pid).againstVotes +
             (s.proposals pid).abstainVotes)) ∧
    (∀ (s s1 : GovState) (c now supply pid : Nat),
      executeProposal s c now supply pid = .ok s1 →
      s1.proposals pid = { s.proposals pid with executed := true } ∧
      ∀ j, j ≠ pid → s1.proposals j = s.proposals j) ∧
    (∀ (s : GovState) (c now supply pid : Nat),
      now ≤ (s.proposals pid).endTime + s.executionDelay →
      isOk (executeProposal s c now supply pid) = false) ∧
    (∀ (s s1 : GovState) (c now supply pid c2 now2 supply2 : Nat),
      executeProposal s c now supply pid = .ok s1 →
      isOk (executeProposal s1 c2 now2 supply2 pid) = false) := by
  refine ⟨executeProposal_ok_iff, ?_, ?_, ?_⟩
  · intro s s1 c now supply pid hok
    obtain ⟨_, _, hset, hfr, _⟩ := @executeProposal_ok_effects s s1 c now supply pid hok
    exact ⟨hset, hfr⟩
  · intro s c now supply pid hnow
    cases hcase : isOk (executeProposal s c now supply pid) with
    | false => rfl
    | true =>
      obtain ⟨_, hdel, _⟩ := (executeProposal_ok_iff s c now supply pid).mp hcase
      omega
  · intro s s1 c now supply pid c2 now2 supply2 hok
    obtain ⟨_, _, hset, _⟩ := @executeProposal_ok_effects s s1 c now supply pid hok
    cases hcase : isOk (executeProposal s1 c2 now2 supply2 pid) with
    | false => rfl
    | true =>
      obtain ⟨_, _, hexe, _⟩ := (executeProposal_ok_iff s1 c2 now2 supply2 pid).mp hcase
      rw [hset] at hexe
      cases hexe

/-- Concrete instantiation of `claim_executeProposal_charact`: on the
unpaused variant of the counterexample run, execution at `now = 100000`
succeeds and sets `executed`; at `now = endTime + delay` it fails; and the
repeat call on the executed proposal fails. -/
theorem claim_executeProposal_charact_witness :
    (isOk (executeProposal (govRun (deployedGov 100 0 10 3)
        [.createProposal 44 86400 (1000 * 10 ^ 18) "T" "D" .DEX 0,
         .vote 44 86450 5000 0 1]) 44 86510 10000 0) = false) ∧
    ((govApply (.executeProposal 44 100000 10000 0)
        (govRun (deployedGov 100 0 10 3)
          [.createProposal 44 86400 (1000 * 10 ^ 18) "T" "D" .DEX 0,
           .vote 44 86450 5000 0 1])).proposals 0) =
      { (govRun (deployedGov 100 0 10 3)
          [.createProposal 44 86400 (1000 * 10 ^ 18) "T" "D" .DEX 0,
           .vote 44 86450 5000 0 1]).proposals 0 with executed := true } ∧
    isOk (executeProposal
      (govApply (.executeProposal 44 100000 10000 0)
        (govRun (deployedGov 100 0 10 3)
          [.createProposal 44 86400 (1000 * 10 ^ 18) "T" "D" .DEX 0,
           .vote 44 86450 5000 0 1])) 44 200000 10000 0) = false := by
  refine ⟨claim_executeProposal_charact.2.2.1
      (govRun (deployedGov 100 0 10 3)
        [.createProposal 44 86400 (1000 * 10 ^ 18) "T" "D" .DEX 0,
         .vote 44 86450 5000 0 1]) 44 86510 10000 0 (by decide),
    (claim_executeProposal_charact.2.1
      (govRun (deployedGov 100 0 10 3)
        [.createProposal 44 86400 (1000 * 10 ^ 18) "T" "D" .DEX 0,
         .vote 44 86450 5000 0 1])
      (govApply (.executeProposal 44 100000 10000 0)
        (govRun (deployedGov 100 0 10 3)
          [.createProposal 44 86400 (1000 * 10 ^ 18) "T" "D" .DEX 0,
           .vote 44 86450 5000 0 1]))
      44 100000 10000 0 (by rfl)).1,
    claim_executeProposal_charact.2.2.2
      (govRun (deployedGov 100 0 10 3)
        [.createProposal 44 86400 (1000 * 10 ^ 18) "T" "D" .DEX 0,
         .vote 44 86450 5000 0 1])
      (govApply (.executeProposal 44 100000 10000 0)
        (govRun (deployedGov 100 0 10 3)
          [.createProposal 44 86400 (1000 * 10 ^ 18) "T" "D" .DEX 0,
           .vote 44 86450 5000 0 1]))
      44 100000 10000 0 44 200000 10000 (by rfl)⟩

end Gov

namespace Gov

/-- Modelled from the claim's words (for comparison only): the caller's
"open-proposal count" — proposals the caller created that are neither
executed nor canceled.  The source instead gates on `userProposalCount`,
which is never decremented. -/
def openProposalCount_claim (s : GovState) (a : Addr) : Nat :=
  ((List.range s.proposalCounter).filter (fun j =>
    (s.proposals j).proposer == a && !(s.proposals j).executed &&
      !(s.proposals j).canceled)).length

/-- C9 (as frozen) is falsified by cancellation: account 44 creates five
proposals (the default `maxProposalsPerAccount`) and cancels each, so its
open-proposal count is 0 < 5 and every other listed precondition holds at
the sixth attempt — yet `createProposal` reverts ("Too many proposals"),
because the code gates on the never-decremented `userProposalCount`. -/
theorem claim_createProposal_counterexample :
    openProposalCount_claim (govRun (deployedGov 100 0 10 3)
        [.createProposal 44 86400 (1000 * 10 ^ 18) "T" "D" .DEX 0,
         .cancelProposal 44 0 "x",
         .createProposal 44 172800 (1000 * 10 ^ 18) "T" "D" .DEX 0,
         .cancelProposal 44 1 "x",
         .createProposal 44 259200 (1000 * 10 ^ 18) "T" "D" .DEX 0,
         .cancelProposal 44 2 "x",
         .createProposal 44 345600 (1000 * 10 ^ 18) "T" "D" .DEX 0,
         .cancelProposal 44 3 "x",
         .createProposal 44 432000 (1000 * 10 ^ 18) "T" "D" .DEX 0,
         .cancelProposal 44 4 "x"]) 44 <
      (govRun (deployedGov 100 0 10 3)
        [.createProposal 44 86400 (1000 * 10 ^ 18) "T" "D" .DEX 0,
         .cancelProposal 44 0 "x",
         .createProposal 44 172800 (1000 * 10 ^ 18) "T" "D" .DEX 0,
         .cancelProposal 44 1 "x",
         .createProposal 44 259200 (1000 * 10 ^ 18) "T" "D" .DEX 0,
         .cancelProposal 44 2 "x",
         .createProposal 44 345600 (1000 * 10 ^ 18) "T" "D" .DEX 0,
         .cancelProposal 44 3 "x",
         .createProposal 44 432000 (1000 * 10 ^ 18) "T" "D" .DEX 0,
         .cancelProposal 44 4 "x"]).maxProposalsPerAccount ∧
    ("Upgrade Router".length ≠ 0 ∧ ("d".length ≠ 0)) ∧
    (govRun (deployedGov 100 0 10 3)
        [.createProposal 44 86400 (1000 * 10 ^ 18) "T" "D" .DEX 0,
         .cancelProposal 44 0 "x",
         .createProposal 44 172800 (1000 * 10 ^ 18) "T" "D" .DEX 0,
         .cancelProposal 44 1 "x",
         .createProposal 44 259200 (1000 * 10 ^ 18) "T" "D" .DEX 0,
         .cancelProposal 44 2 "x",
         .createProposal 44 345600 (1000 * 10 ^ 18) "T" "D" .DEX 0,
         .cancelProposal 44 3 "x",
         .createProposal 44 432000 (1000 * 10 ^ 18) "T" "D" .DEX 0,
         .cancelProposal 44 4 "x"]).minProposalThreshold ≤ 1000 * 10 ^ 18 ∧
    (govRun (deployedGov 100 0 10 3)
        [.createProposal 44 86400 (1000 * 10 ^ 18) "T" "D" .DEX 0,
         .cancelProposal 44 0 "x",
         .createProposal 44 172800 (1000 * 10 ^ 18) "T" "D" .DEX 0,
         .cancelProposal 44 1 "x",
         .createProposal 44 259200 (1000 * 10 ^ 18) "T" "D" .DEX 0,
         .cancelProposal 44 2 "x",
         .createProposal 44 345600 (1000 * 10 ^ 18) "T" "D" .DEX 0,
         .cancelProposal 44 3 "x",
         .createProposal 44 432000 (1000 * 10 ^ 18) "T" "D" .DEX 0,
         .cancelProposal 44 4 "x"]).lastProposalTime 44 + oneDay ≤ 518400 ∧
    isOk (createProposal (govRun (deployedGov 100 0 10 3)
        [.createProposal 44 86400 (1000 * 10 ^ 18) "T" "D" .DEX 0,
         .cancelProposal 44 0 "x",
         .createProposal 44 172800 (1000 * 10 ^ 18) "T" "D" .DEX 0,
         .cancelProposal 44 1 "x",
         .createProposal 44 259200 (1000 * 10 ^ 18) "T" "D" .DEX 0,
         .cancelProposal 44 2 "x",
         .createProposal 44 345600 (1000 * 10 ^ 18) "T" "D" .DEX 0,
         .cancelProposal 44 3 "x",
         .createProposal 44 432000 (1000 * 10 ^ 18) "T" "D" .DEX 0,
         .cancelProposal 44 4 "x"])
      44 518400 (1000 * 10 ^ 18) "Upgrade Router" "d" .DEX 0) = false := by
  decide

/-- C9 (amended): `createProposal` succeeds exactly when the title and
description are non-empty, the caller's live balance reaches
`minProposalThreshold`, the caller's lifetime proposal count
`userProposalCount` (never decremented when proposals are executed or
canceled) is below `maxProposalsPerAccount`, and 24h have elapsed since
the caller's last proposal; ids are assigned sequentially from 0 (the
deployed counter), and a second call by the same caller within 24h of a
success fails.  (`targetProject` is a typed enum here, so validity is
implicit.) -/
theorem claim_createProposal_charact :
    (∀ (s : GovState) (caller now bal : Nat) (title desc : String)
        (tp : Project) (data : Nat),
      isOk (createProposal s caller now bal title desc tp data) = true ↔
        (title.length ≠ 0 ∧ desc.length ≠ 0 ∧ s.minProposalThreshold ≤ bal ∧
         s.userProposalCount caller < s.maxProposalsPerAccount ∧
         s.lastProposalTime caller + oneDay ≤ now)) ∧
    (∀ (s s1 : GovState) (caller now bal : Nat) (title desc : String)
        (tp : Project) (data : Nat),
      createProposal s caller now bal title desc tp data = .ok s1 →
      (s1.proposals s.proposalCounter).id = s.proposalCounter ∧
      (s1.proposals s.proposalCounter).proposer = caller ∧
      s1.proposalCounter = s.proposalCounter + 1 ∧
      s1.userProposalCount caller = s.userProposalCount caller + 1 ∧
      s1.lastProposalTime caller = now) ∧
    (∀ vp q d ow : Nat, (deployedGov vp q d ow).proposalCounter = 0) ∧
    (∀ (s s1 : GovState) (caller now bal : Nat) (title desc : String)
        (tp : Project) (data now2 bal2 : Nat) (title2 desc2 : String)
        (tp2 : Project) (data2 : Nat),
      createProposal s caller now bal title desc tp data = .ok s1 →
      now2 < now + oneDay →
      isOk (createProposal s1 caller now2 bal2 title2 desc2 tp2 data2) = false) ∧
    (∀ (o : GOp) (s : GovState) (v : Addr),
      s.userProposalCount v ≤ (govApply o s).userProposalCount v) := by
  refine ⟨createProposal_ok_iff, ?_, fun vp q d ow => rfl, ?_, ?_⟩
  · intro s s1 caller now bal title desc tp data hok
    obtain ⟨hcnt, _, hnew, hupc, hlast, _⟩ := createProposal_ok_effects hok
    rw [hnew]
    exact ⟨rfl, rfl, hcnt, hupc, hlast⟩
  · intro s s1 caller now bal title desc tp data now2 bal2 title2 desc2 tp2 data2 hok hlt
    obtain ⟨_, _, _, _, hlast, _⟩ := createProposal_ok_effects hok
    cases hcase : isOk (createProposal s1 caller now2 bal2 title2 desc2 tp2 data2) with
    | false => rfl
    | true =>
      obtain ⟨_, _, _, _, hcool⟩ :=
        (createProposal_ok_iff s1 caller now2 bal2 title2 desc2 tp2 data2).mp hcase
      rw [hlast] at hcool
      omega
  · intro o s v
    unfold govApply
    cases hstep : govStep o s with
    | error e => exact Nat.le_refl _
    | ok s1 =>
      dsimp only
      cases o with
      | createProposal c now bal title desc tp data =>
        obtain ⟨_, _, _, hupc, _, _, _, _, _, _, hoth⟩ := createProposal_ok_effects hstep
        by_cases hvc : v = c
        · subst v
          omega
        · rw [hoth v hvc]
      | vote c now bal pid sup =>
        obtain ⟨_, _, _, _, _, _, _, _, _, _, _, _, _, _, _, _, _, hupc⟩ := vote_ok_effects hstep
        rw [hupc]
      | executeProposal c now supply pid =>
        obtain ⟨_, _, _, _, _, _, hupc⟩ := @executeProposal_ok_effects s s1 c now supply pid hstep
        rw [hupc]
      | cancelProposal c pid reason =>
        obtain ⟨_, _, _, _, _, _, hupc⟩ := @cancelProposal_ok_effects s s1 c pid reason hstep
        rw [hupc]
      | emergencyPause c reason =>
        have hp := pause_frame (.emergencyPause c reason) s trivial
        have heq : govApply (.emergencyPause c reason) s = s1 := by
          unfold govApply
          rw [hstep]
        rw [← heq, hp.2.2]
      | emergencyUnpause c reason =>
        have hp := pause_frame (.emergencyUnpause c reason) s trivial
        have heq : govApply (.emergencyUnpause c reason) s = s1 := by
          unfold govApply
          rw [hstep]
        rw [← heq, hp.2.2]

/-- Concrete instantiation of `claim_createProposal_charact`: the first
proposal from the deployed state gets id 0 and a second call within 24h
fails. -/
theorem claim_createProposal_charact_witness :
    ((govApply (.createProposal 44 86400 (1000 * 10 ^ 18) "Upgrade Router" "d" .DEX 0)
        (deployedGov 100 0 10 3)).proposals 0).id = 0 ∧
    (govApply (.createProposal 44 86400 (1000 * 10 ^ 18) "Upgrade Router" "d" .DEX 0)
        (deployedGov 100 0 10 3)).proposalCounter = 1 ∧
    isOk (createProposal
      (govApply (.createProposal 44 86400 (1000 * 10 ^ 18) "Upgrade Router" "d" .DEX 0)
        (deployedGov 100 0 10 3)) 44 100000 (1000 * 10 ^ 18) "Again" "d" .DEX 0) = false ∧
    (deployedGov 100 0 10 3).userProposalCount 44 ≤
      (govApply (.emergencyPause 3 "stop") (deployedGov 100 0 10 3)).userProposalCount 44 := by
  have he := claim_createProposal_charact.2.1 (deployedGov 100 0 10 3)
    (govApply (.createProposal 44 86400 (1000 * 10 ^ 18) "Upgrade Router" "d" .DEX 0)
      (deployedGov 100 0 10 3))
    44 86400 (1000 * 10 ^ 18) "Upgrade Router" "d" .DEX 0 (by rfl)
  exact ⟨he.1, he.2.2.1,
    claim_createProposal_charact.2.2.2.1 (deployedGov 100 0 10 3)
      (govApply (.createProposal 44 86400 (1000 * 10 ^ 18) "Upgrade Router" "d" .DEX 0)
        (deployedGov 100 0 10 3))
      44 86400 (1000 * 10 ^ 18) "Upgrade Router" "d" .DEX 0 100000 (1000 * 10 ^ 18)
      "Again" "d" .DEX 0 (by rfl) (by decide),
    claim_createProposal_charact.2.2.2.2 (.emergencyPause 3 "stop")
      (deployedGov 100 0 10 3) 44⟩

end Gov
